import Mathlib

/-!
Verification of the SpineKit schema-evolution subsystem.

Shallow embedding of:
- `packages/shared/src/schemas.ts` (zod validation),
- the SQLite adapter (`SQLiteAdapter`: connection flag, transaction flag,
  begin/commit/rollback, system catalog relations, type mapping),
- `packages/backend/src/services/schema.service.ts` (SchemaService).

Modelling conventions:
- The two system catalog relations `_spinekit_tables` and `_spinekit_fields`
  are the `tables` and `fields` components of `DBState`; user (physical)
  relations live in `phys`, keyed by name.  Each SQL statement issued by the
  service is translated to a semantic operation on `DBState` carrying the
  engine-level constraint checks SQLite performs (PRIMARY KEY / UNIQUE on the
  catalog relations, duplicate-column rejection in CREATE TABLE / ADD COLUMN,
  existence checks for DROP / RENAME).
- SQLite transactions are modelled by a snapshot taken at BEGIN and restored
  at ROLLBACK.
- JavaScript values that can appear as a field default are modelled by
  `JSValue` with JS truthiness.  `JSON.stringify` of such a value is a
  non-empty string, and `JSON.parse` inverts it, so the stored
  `default_value` column is modelled as `Option JSValue` directly:
  `null` is `none`, a stored JSON string is `some v`.
- `crypto.randomUUID()` and clock reads (`new Date().toISOString()`,
  `Date.now()`) are passed in as explicit parameters.
- Transient storage failures are modelled by a fault oracle `fa : Nat → Bool`
  consulted once per `db.execute` call, in order.
-/

namespace SpineKit

/-! ## Values and field types -/

inductive FieldType
  | string
  | number
  | boolean
  | date
  | json
deriving DecidableEq, Repr

/-- A JavaScript value usable as a field default value. -/
inductive JSValue
  | bool (b : Bool)
  | num (n : Int)
  | str (s : String)
  | null
deriving DecidableEq, Repr

/-- JavaScript truthiness: `false`, `0`, the empty string and `null` are falsy. -/
def JSValue.truthy : JSValue → Bool
  | .bool b => b
  | .num n => n != 0
  | .str s => s != ""
  | .null => false

/-- JavaScript string conversion, as used by template literals and `String(value)`. -/
def JSValue.toJSString : JSValue → String
  | .bool b => if b then "true" else "false"
  | .num n => toString n
  | .str s => s
  | .null => "null"

/-- Truthiness of an optional value (`undefined` is falsy). -/
def jsTruthy : Option JSValue → Bool
  | some v => v.truthy
  | none => false

/-- The value stored in a TEXT column by `x ? JSON.stringify(x) : null`:
falsy values (including `undefined`) store SQL NULL. -/
def storedDefault (v : Option JSValue) : Option JSValue :=
  match v with
  | some w => if w.truthy then some w else none
  | none => none

/-- The value stored by `s || null` for an optional string: the empty string
stores SQL NULL.  Also models the read direction `s || undefined`. -/
def strOrNull : Option String → Option String
  | some s => if s = "" then none else some s
  | none => none

/-! ## Catalog rows (`_spinekit_tables`, `_spinekit_fields`) -/

structure TableRow where
  id : String
  name : String
  displayName : String
  description : Option String
  createdAt : String
  updatedAt : String
deriving DecidableEq, Repr

structure FieldRow where
  id : String
  tableId : String
  name : String
  displayName : String
  ftype : FieldType
  required : Bool
  unique : Bool
  defaultValue : Option JSValue
  description : Option String
  sortOrder : Nat
  createdAt : String
  updatedAt : String
deriving DecidableEq, Repr

/-! ## Physical schema -/

/-- One column of a physical table, as declared by the generated DDL. -/
structure PhysCol where
  name : String
  sqlType : String
  primaryKey : Bool
  notNull : Bool
  unique : Bool
  /-- The literal text of a DEFAULT clause, if one was emitted. -/
  dflt : Option String
deriving DecidableEq, Repr

structure PhysTable where
  cols : List PhysCol
deriving DecidableEq, Repr

/-- Names of the system catalog relations, present in `sqlite_master`. -/
def sysTables : List String := ["_spinekit_tables", "_spinekit_fields"]

/-- The whole database: the two catalog relations plus the user relations. -/
@[ext]
structure DBState where
  tables : List TableRow
  fields : List FieldRow
  phys : List (String × PhysTable)
deriving DecidableEq, Repr

namespace DBState

def physTable (db : DBState) (name : String) : Option PhysTable :=
  (db.phys.find? (fun p => p.1 == name)).map (fun p => p.2)

/-- `tableExists` via `sqlite_master`: system relations count as existing. -/
def tableExistsB (db : DBState) (name : String) : Bool :=
  sysTables.contains name || db.phys.any (fun p => p.1 == name)

/-- `INSERT INTO _spinekit_tables ...` with its PRIMARY KEY and UNIQUE(name)
constraint checks. -/
def insertTableRow (db : DBState) (r : TableRow) : Except String DBState :=
  if db.tables.any (fun t => t.id == r.id || t.name == r.name) then
    .error "UNIQUE constraint failed: _spinekit_tables"
  else
    .ok { db with tables := db.tables ++ [r] }

/-- `INSERT INTO _spinekit_fields ...` with PRIMARY KEY, UNIQUE(table_id, name)
and the FOREIGN KEY to `_spinekit_tables` (foreign keys are ON). -/
def insertFieldRow (db : DBState) (r : FieldRow) : Except String DBState :=
  if db.fields.any (fun f => f.id == r.id || (f.tableId == r.tableId && f.name == r.name)) then
    .error "UNIQUE constraint failed: _spinekit_fields"
  else if !(db.tables.any (fun t => t.id == r.tableId)) then
    .error "FOREIGN KEY constraint failed"
  else
    .ok { db with fields := db.fields ++ [r] }

/-- `UPDATE _spinekit_fields SET ... WHERE table_id = ? AND name = ?` for
updates that do not change the row key (never fails). -/
def updateFieldRows (db : DBState) (tid nm : String) (f : FieldRow → FieldRow) : DBState :=
  { db with fields := db.fields.map (fun r => if r.tableId == tid && r.name == nm then f r else r) }

/-- `UPDATE _spinekit_fields SET name = ?, updated_at = ? WHERE ...`:
renaming a field row must respect UNIQUE(table_id, name). -/
def updateFieldName (db : DBState) (tid old new now : String) : Except String DBState :=
  if db.fields.any (fun r => r.tableId == tid && !(r.name == old) && r.name == new) then
    .error "UNIQUE constraint failed: _spinekit_fields"
  else
    .ok (db.updateFieldRows tid old (fun r => { r with name := new, updatedAt := now }))

/-- `DELETE FROM _spinekit_fields WHERE table_id = ? AND name = ?` (never fails). -/
def deleteFieldRow (db : DBState) (tid nm : String) : DBState :=
  { db with fields := db.fields.filter (fun r => !(r.tableId == tid && r.name == nm)) }

/-- `DELETE FROM _spinekit_tables WHERE name = ?`; the foreign key cascades and
deletes the table's field rows. -/
def deleteCatalogTable (db : DBState) (nm : String) : DBState :=
  let ids := (db.tables.filter (fun t => t.name == nm)).map (fun t => t.id)
  { db with
    tables := db.tables.filter (fun t => !(t.name == nm)),
    fields := db.fields.filter (fun f => !(ids.contains f.tableId)) }

/-- Duplicate detection on a list of column names. -/
def hasDup : List String → Bool
  | [] => false
  | x :: xs => xs.contains x || hasDup xs

/-- `CREATE TABLE name (...)`: fails when the relation exists or when two
declared columns share a name. -/
def createPhys (db : DBState) (name : String) (cols : List PhysCol) : Except String DBState :=
  if db.tableExistsB name then
    .error "table already exists"
  else if hasDup (cols.map PhysCol.name) then
    .error "duplicate column name"
  else
    .ok { db with phys := db.phys ++ [(name, ⟨cols⟩)] }

/-- `DROP TABLE IF EXISTS name` (never fails). -/
def dropPhysIfExists (db : DBState) (name : String) : DBState :=
  { db with phys := db.phys.filter (fun p => !(p.1 == name)) }

/-- `DROP TABLE name`: fails when the relation is absent. -/
def dropPhys (db : DBState) (name : String) : Except String DBState :=
  if db.phys.any (fun p => p.1 == name) then
    .ok { db with phys := db.phys.filter (fun p => !(p.1 == name)) }
  else
    .error "no such table"

/-- `ALTER TABLE old RENAME TO new`. -/
def renamePhysTable (db : DBState) (old new : String) : Except String DBState :=
  match db.physTable old with
  | none => .error "no such table"
  | some pt =>
    if db.tableExistsB new then
      .error "table already exists"
    else
      .ok { db with phys := (db.phys.filter (fun p => !(p.1 == old))) ++ [(new, pt)] }

/-- `ALTER TABLE name ADD COLUMN ...`: fails when the relation is absent or a
column of that name exists. -/
def addPhysCol (db : DBState) (name : String) (col : PhysCol) : Except String DBState :=
  match db.physTable name with
  | none => .error "no such table"
  | some pt =>
    if pt.cols.any (fun c => c.name == col.name) then
      .error "duplicate column name"
    else
      .ok { db with
        phys := db.phys.map (fun p => if p.1 == name then (p.1, ⟨pt.cols ++ [col]⟩) else p) }

/-- `ALTER TABLE name DROP COLUMN col`: fails when the relation or column is absent. -/
def dropPhysCol (db : DBState) (name colName : String) : Except String DBState :=
  match db.physTable name with
  | none => .error "no such table"
  | some pt =>
    if pt.cols.any (fun c => c.name == colName) then
      .ok { db with
        phys := db.phys.map (fun p =>
          if p.1 == name then (p.1, ⟨pt.cols.filter (fun c => !(c.name == colName))⟩) else p) }
    else
      .error "no such column"

/-- `ALTER TABLE name RENAME COLUMN old TO new`. -/
def renamePhysCol (db : DBState) (name old new : String) : Except String DBState :=
  match db.physTable name with
  | none => .error "no such table"
  | some pt =>
    if !(pt.cols.any (fun c => c.name == old)) then
      .error "no such column"
    else if pt.cols.any (fun c => c.name == new) then
      .error "duplicate column name"
    else
      .ok { db with
        phys := db.phys.map (fun p =>
          if p.1 == name then
            (p.1, ⟨pt.cols.map (fun c => if c.name == old then { c with name := new } else c)⟩)
          else p) }

/-- `INSERT INTO dst (cols) SELECT cols FROM src`: both relations must exist
and carry every listed column.  Row contents are not tracked by the model. -/
def copyRows (db : DBState) (dst src : String) (cols : List String) : Except String DBState :=
  match db.physTable dst, db.physTable src with
  | some dt, some srct =>
    if cols.all (fun c => dt.cols.any (fun d => d.name == c))
        && cols.all (fun c => srct.cols.any (fun d => d.name == c)) then
      .ok db
    else
      .error "no such column"
  | _, _ => .error "no such table"

end DBState

/-! ## Adapter state and transaction control (`SQLiteAdapter`) -/

structure AdapterState where
  connected : Bool
  inTransaction : Bool
  db : DBState
  /-- Snapshot taken at BEGIN, restored at ROLLBACK. -/
  snapshot : Option DBState
deriving DecidableEq, Repr

def beginTransaction (st : AdapterState) : Except String AdapterState :=
  if !st.connected then .error "Database not connected"
  else if st.inTransaction then .error "Transaction already in progress"
  else .ok { st with inTransaction := true, snapshot := some st.db }

def commit (st : AdapterState) : Except String AdapterState :=
  if !st.connected then .error "Database not connected"
  else if !st.inTransaction then .error "No transaction in progress"
  else .ok { st with inTransaction := false, snapshot := none }

def rollback (st : AdapterState) : Except String AdapterState :=
  if !st.connected then .error "Database not connected"
  else if !st.inTransaction then .error "No transaction in progress"
  else .ok { st with inTransaction := false, db := st.snapshot.getD st.db, snapshot := none }

/-- One fault-injectable `db.execute` step: the oracle `fa` decides whether
call number `k` fails with a storage error before the engine runs it. -/
def runExec (fa : Nat → Bool) (k : Nat) (op : DBState → Except String DBState)
    (db : DBState) : Except String (DBState × Nat) :=
  if fa k then .error "injected storage failure"
  else
    match op db with
    | .ok db2 => .ok (db2, k + 1)
    | .error e => .error e

/-- The transactional skeleton shared by every mutation of `SchemaService`:
`beginTransaction`, a try block, `commit`, and a catch block that rolls back
and rethrows.  (If rollback itself failed, its error would replace the
original, as in JavaScript; that branch is unreachable from the states the
service produces.) -/
def runMutation {α : Type} (st : AdapterState)
    (body : DBState → Except String (DBState × α)) :
    AdapterState × Except String α :=
  match beginTransaction st with
  | .error e => (st, .error e)
  | .ok st1 =>
    match body st1.db with
    | .ok (db2, a) =>
      match commit { st1 with db := db2 } with
      | .ok st2 => (st2, .ok a)
      | .error e =>
        match rollback { st1 with db := db2 } with
        | .ok st3 => (st3, .error e)
        | .error e2 => ({ st1 with db := db2 }, .error e2)
    | .error e =>
      match rollback st1 with
      | .ok st3 => (st3, .error e)
      | .error e2 => (st1, .error e2)

/-! ## Validation (`schemas.ts`, zod) -/

/-- The identifier grammar of `fieldDefinitionSchema` / `tableSchemaSchema`:
one character of `[a-zA-Z_]` followed by characters of `[a-zA-Z0-9_]`. -/
def isValidIdent (s : String) : Bool :=
  match s.data with
  | [] => false
  | c :: cs => (c.isAlpha || c == '_') && cs.all (fun d => d.isAlphanum || d == '_')

/-- A field definition as supplied by the caller (pre-parse): the optional
booleans are zod fields with `.optional().default(false)`. -/
structure FieldInput where
  name : String
  displayName : String
  ftype : FieldType
  required : Option Bool
  unique : Option Bool
  defaultValue : Option JSValue
  description : Option String
deriving DecidableEq, Repr

/-- The result of `fieldDefinitionSchema.parse`. -/
structure ParsedField where
  name : String
  displayName : String
  ftype : FieldType
  required : Bool
  unique : Bool
  defaultValue : Option JSValue
  description : Option String
deriving DecidableEq, Repr

def parseField (f : FieldInput) : Except String ParsedField :=
  if !isValidIdent f.name then .error "Must be a valid identifier"
  else if f.displayName = "" then .error "displayName must contain at least 1 character"
  else
    .ok { name := f.name, displayName := f.displayName, ftype := f.ftype,
          required := f.required.getD false, unique := f.unique.getD false,
          defaultValue := f.defaultValue, description := f.description }

structure TableInput where
  name : String
  displayName : String
  description : Option String
  fields : List FieldInput
deriving DecidableEq, Repr

structure ParsedTable where
  name : String
  displayName : String
  description : Option String
  fields : List ParsedField
deriving DecidableEq, Repr

def parseFieldList : List FieldInput → Except String (List ParsedField)
  | [] => .ok []
  | f :: fs => do
    let p ← parseField f
    let ps ← parseFieldList fs
    .ok (p :: ps)

/-- `tableSchemaSchema.parse`. -/
def parseTable (t : TableInput) : Except String ParsedTable :=
  if !isValidIdent t.name then .error "Must be a valid table name"
  else if t.displayName = "" then .error "displayName must contain at least 1 character"
  else if t.fields.isEmpty then .error "fields must contain at least 1 element"
  else do
    let ps ← parseFieldList t.fields
    .ok { name := t.name, displayName := t.displayName,
          description := t.description, fields := ps }

/-! ## In-memory shapes returned by the service -/

structure FieldDefinition where
  id : String
  name : String
  displayName : String
  ftype : FieldType
  required : Bool
  unique : Bool
  defaultValue : Option JSValue
  description : Option String
deriving DecidableEq, Repr

structure TableSchema where
  id : String
  name : String
  displayName : String
  description : Option String
  fields : List FieldDefinition
  createdAt : String
  updatedAt : String
deriving DecidableEq, Repr

/-! ## Catalog reads (`getTable`, `getTableFields`) -/

/-- Mapping a `_spinekit_fields` row back to a `FieldDefinition`
(`getTableFields`): a stored default is a non-empty JSON string, hence truthy,
so `default_value ? JSON.parse(default_value) : undefined` returns exactly the
stored value; `description || undefined` turns an empty string into absent. -/
def rowToFieldDefinition (r : FieldRow) : FieldDefinition :=
  { id := r.id, name := r.name, displayName := r.displayName, ftype := r.ftype,
    required := r.required, unique := r.unique,
    defaultValue := r.defaultValue, description := strOrNull r.description }

/-- Decidable comparison used by the model for `ORDER BY sort_order ASC`. -/
def bySortOrder (a b : FieldRow) : Prop := a.sortOrder ≤ b.sortOrder

instance : DecidableRel bySortOrder := fun a b => Nat.decLe a.sortOrder b.sortOrder

def DBState.fieldRowsOf (db : DBState) (tid : String) : List FieldRow :=
  db.fields.filter (fun r => r.tableId == tid)

/-- `getTableFields`: `SELECT * FROM _spinekit_fields WHERE table_id = ?
ORDER BY sort_order ASC`. -/
def DBState.getTableFields (db : DBState) (tid : String) : List FieldDefinition :=
  ((db.fieldRowsOf tid).insertionSort bySortOrder).map rowToFieldDefinition

/-- `getTable`: the catalog row of that name (the name column is UNIQUE)
together with its fields. -/
def DBState.getTable (db : DBState) (name : String) : Option TableSchema :=
  match db.tables.find? (fun t => t.name == name) with
  | none => none
  | some t =>
    some { id := t.id, name := t.name, displayName := t.displayName,
           description := strOrNull t.description,
           fields := db.getTableFields t.id,
           createdAt := t.createdAt, updatedAt := t.updatedAt }

/-! ## Type mapping and DDL column construction -/

def mapFieldTypeToSQL : FieldType → String
  | .string => "TEXT"
  | .number => "REAL"
  | .boolean => "INTEGER"
  | .date => "TEXT"
  | .json => "TEXT"

/-- Whitespace stripped by JavaScript `trim()` (the cases relevant here). -/
def isJSWhitespace (c : Char) : Bool :=
  c == ' ' || c == '\t' || c == '\n' || c == '\r'

/-- JavaScript `s.trim()`: strip leading and trailing whitespace. -/
def jsTrim (s : String) : String :=
  String.mk (((s.data.dropWhile isJSWhitespace).reverse.dropWhile isJSWhitespace).reverse)

/-- Single-quote character, as a string. -/
def sq : String := "\x27"

/-- Decimal digit characters of `n`, most significant first; the `fuel`
argument only bounds the recursion depth and any `fuel ≥ n` is enough. -/
def natToDecimalAux : Nat → Nat → List Char
  | 0, _ => []
  | fuel + 1, n =>
    if n = 0 then []
    else natToDecimalAux fuel (n / 10) ++ [Nat.digitChar (n % 10)]

/-- Decimal rendering of a natural number, as produced by a JavaScript
template literal for an integer such as `Date.now()`. -/
def natToDecimal (n : Nat) : String :=
  if n = 0 then "0" else String.mk (natToDecimalAux n n)

/-- `formatDefaultValue`: SQL literal text for a DEFAULT clause. -/
def formatDefaultValue (value : JSValue) (t : FieldType) : String :=
  match t with
  | .string => sq ++ value.toJSString ++ sq
  | .date => sq ++ value.toJSString ++ sq
  | .json => sq ++ value.toJSString ++ sq
  | .boolean => if value.truthy then "1" else "0"
  | .number => value.toJSString

def idCol : PhysCol :=
  { name := "id", sqlType := "TEXT", primaryKey := true, notNull := false,
    unique := false, dflt := none }

def auditCol (nm : String) : PhysCol :=
  { name := nm, sqlType := "TEXT", primaryKey := false, notNull := true,
    unique := false, dflt := none }

/-- Column declaration emitted by `createPhysicalTable` for one field. -/
def fieldToPhysCol (f : FieldDefinition) : PhysCol :=
  { name := f.name, sqlType := mapFieldTypeToSQL f.ftype, primaryKey := false,
    notNull := f.required, unique := f.unique, dflt := none }

/-- The full column list of `createPhysicalTable`: primary key, one column per
field, then the two audit columns. -/
def physColsFor (fields : List FieldDefinition) : List PhysCol :=
  idCol :: fields.map fieldToPhysCol ++ [auditCol "created_at", auditCol "updated_at"]

/-! ## SchemaService -/

namespace SchemaService

/-- `createPhysicalTable`. -/
def createPhysicalTable (tableName : String) (fields : List FieldDefinition)
    (db : DBState) : Except String DBState :=
  db.createPhys tableName (physColsFor fields)

/-- The field-insertion loop of `createTable`: builds a catalog row per field
(with sort position `i`) and the in-memory `FieldDefinition` pushed on the
result list.  `fieldIds i` is the UUID generated on iteration `i`. -/
def insertFieldsLoop (tableId now : String) (fieldIds : Nat → String) (fa : Nat → Bool) :
    List ParsedField → Nat → Nat → DBState →
    Except String (DBState × Nat × List FieldDefinition)
  | [], _, k, db => .ok (db, k, [])
  | f :: fs, i, k, db => do
    let fieldId := fieldIds i
    let row : FieldRow :=
      { id := fieldId, tableId := tableId, name := f.name, displayName := f.displayName,
        ftype := f.ftype, required := f.required, unique := f.unique,
        defaultValue := storedDefault f.defaultValue,
        description := strOrNull f.description,
        sortOrder := i, createdAt := now, updatedAt := now }
    let r1 ← runExec fa k (fun d => d.insertFieldRow row) db
    let r2 ← insertFieldsLoop tableId now fieldIds fa fs (i + 1) r1.2 r1.1
    .ok (r2.1, r2.2.1,
      { id := fieldId, name := f.name, displayName := f.displayName, ftype := f.ftype,
        required := f.required, unique := f.unique, defaultValue := f.defaultValue,
        description := f.description } :: r2.2.2)

/-- The try block of `createTable`. -/
def createTableBody (v : ParsedTable) (tableId : String) (fieldIds : Nat → String)
    (now : String) (fa : Nat → Bool) (db : DBState) :
    Except String (DBState × List FieldDefinition) := do
  let trow : TableRow :=
    { id := tableId, name := v.name, displayName := v.displayName,
      description := strOrNull v.description, createdAt := now, updatedAt := now }
  let r1 ← runExec fa 0 (fun d => d.insertTableRow trow) db
  let r2 ← insertFieldsLoop tableId now fieldIds fa v.fields 0 r1.2 r1.1
  let r3 ← runExec fa r2.2.1 (createPhysicalTable v.name r2.2.2) r2.1
  .ok (r3.1, r2.2.2)

/-- `SchemaService.createTable`. -/
def createTable (st : AdapterState) (input : TableInput) (tableId : String)
    (fieldIds : Nat → String) (now : String) (fa : Nat → Bool) :
    AdapterState × Except String TableSchema :=
  match parseTable input with
  | .error e => (st, .error e)
  | .ok v =>
    if st.db.tableExistsB v.name then
      (st, .error "Table already exists")
    else
      runMutation st (fun db => do
        let r ← createTableBody v tableId fieldIds now fa db
        .ok (r.1,
          { id := tableId, name := v.name, displayName := v.displayName,
            description := v.description, fields := r.2,
            createdAt := now, updatedAt := now }))

/-- `SchemaService.deleteTable`. -/
def deleteTable (st : AdapterState) (tableName : String) (fa : Nat → Bool) :
    AdapterState × Except String Unit :=
  match st.db.getTable tableName with
  | none => (st, .error "Table not found")
  | some _ =>
    runMutation st (fun db => do
      let r1 ← runExec fa 0 (fun d => .ok (d.dropPhysIfExists tableName)) db
      let r2 ← runExec fa r1.2 (fun d => .ok (d.deleteCatalogTable tableName)) r1.1
      .ok (r2.1, ()))

/-- Error message of the required-without-default validation in `addColumn`. -/
def requiredDefaultMsg : String :=
  "New column must be nullable or have a default value to avoid breaking existing records"

/-- `SchemaService.addColumn`. -/
def addColumn (st : AdapterState) (tableName : String) (fd : FieldInput)
    (fieldId now : String) (fa : Nat → Bool) :
    AdapterState × Except String Unit :=
  match st.db.getTable tableName with
  | none => (st, .error "Table does not exist")
  | some table =>
    match parseField fd with
    | .error e => (st, .error e)
    | .ok validated =>
      if (table.fields.find? (fun f => f.name == validated.name)).isSome then
        (st, .error "Column already exists")
      else if validated.required && !(jsTruthy validated.defaultValue) then
        (st, .error requiredDefaultMsg)
      else
        runMutation st (fun db => do
          let row : FieldRow :=
            { id := fieldId, tableId := table.id, name := validated.name,
              displayName := validated.displayName, ftype := validated.ftype,
              required := validated.required, unique := validated.unique,
              defaultValue := storedDefault validated.defaultValue,
              description := strOrNull validated.description,
              sortOrder := table.fields.length, createdAt := now, updatedAt := now }
          let r1 ← runExec fa 0 (fun d => d.insertFieldRow row) db
          let col : PhysCol :=
            { name := validated.name, sqlType := mapFieldTypeToSQL validated.ftype,
              primaryKey := false, notNull := validated.required,
              unique := validated.unique,
              dflt := validated.defaultValue.map
                (fun v => formatDefaultValue v validated.ftype) }
          let r2 ← runExec fa r1.2 (fun d => d.addPhysCol tableName col) r1.1
          .ok (r2.1, ()))

def systemColumns : List String := ["id", "created_at", "updated_at"]

/-- `SchemaService.deleteColumn`. -/
def deleteColumn (st : AdapterState) (tableName columnName : String) (fa : Nat → Bool) :
    AdapterState × Except String Unit :=
  match st.db.getTable tableName with
  | none => (st, .error "Table does not exist")
  | some table =>
    if systemColumns.contains columnName then
      (st, .error "Cannot delete system column")
    else if (table.fields.find? (fun f => f.name == columnName)).isNone then
      (st, .error "Column does not exist")
    else
      runMutation st (fun db => do
        let r1 ← runExec fa 0 (fun d => .ok (d.deleteFieldRow table.id columnName)) db
        let r2 ← runExec fa r1.2 (fun d => d.dropPhysCol tableName columnName) r1.1
        .ok (r2.1, ()))

/-- `SchemaService.updateColumnMetadata`. -/
def updateColumnMetadata (st : AdapterState) (tableName columnName : String)
    (displayName? description? : Option String) (now : String) (fa : Nat → Bool) :
    AdapterState × Except String Unit :=
  match st.db.getTable tableName with
  | none => (st, .error "Table does not exist")
  | some table =>
    if (table.fields.find? (fun f => f.name == columnName)).isNone then
      (st, .error "Column does not exist")
    else if displayName?.isSome && jsTrim (displayName?.getD "") = "" then
      (st, .error "Display name cannot be empty")
    else
      runMutation st (fun db => do
        let r1 ← runExec fa 0 (fun d => .ok (d.updateFieldRows table.id columnName
          (fun r =>
            { r with
              displayName := displayName?.getD r.displayName,
              description := if description?.isSome then description? else r.description,
              updatedAt := now }))) db
        .ok (r1.1, ()))

/-- Temporary relation name chosen by the rebuild:
`` `${tableName}_temp_${Date.now()}` ``. -/
def tempName (tableName : String) (nowMs : Nat) : String :=
  tableName ++ "_temp_" ++ natToDecimal nowMs

/-- Column declaration emitted by `rebuildTableWithoutConstraint` for one
field: for the target column the removed constraint is skipped and the other
one kept; other columns keep NOT NULL / UNIQUE from their catalog flags.
No DEFAULT clause is ever emitted. -/
def rebuildColOf (columnName constraint : String) (f : FieldDefinition) : PhysCol :=
  let base : PhysCol :=
    { name := f.name, sqlType := mapFieldTypeToSQL f.ftype, primaryKey := false,
      notNull := false, unique := false, dflt := none }
  if f.name == columnName then
    if constraint == "NOT NULL" && f.unique then { base with unique := true }
    else if constraint == "UNIQUE" && f.required then { base with notNull := true }
    else base
  else
    { base with notNull := f.required, unique := f.unique }

/-- `rebuildTableWithoutConstraint` (private helper of the service): re-reads
the catalog inside the transaction, creates the temporary relation, copies
rows by explicit column list, drops the original and renames the temporary
relation. -/
def rebuildTableWithoutConstraint (tableName columnName constraint : String)
    (nowMs : Nat) (fa : Nat → Bool) (k : Nat) (db : DBState) :
    Except String (DBState × Nat) :=
  match db.getTable tableName with
  | none => .error "Table does not exist"
  | some table => do
    let tempTableName := tempName tableName nowMs
    let cols := idCol :: table.fields.map (rebuildColOf columnName constraint)
      ++ [auditCol "created_at", auditCol "updated_at"]
    let r1 ← runExec fa k (fun d => d.createPhys tempTableName cols) db
    let allColumns := "id" :: table.fields.map (fun f => f.name)
      ++ ["created_at", "updated_at"]
    let r2 ← runExec fa r1.2 (fun d => d.copyRows tempTableName tableName allColumns) r1.1
    let r3 ← runExec fa r2.2 (fun d => d.dropPhys tableName) r2.1
    let r4 ← runExec fa r3.2 (fun d => d.renamePhysTable tempTableName tableName) r3.1
    .ok r4

inductive ConstraintKind
  | required
  | unique
deriving DecidableEq, Repr

/-- `SchemaService.removeConstraint`. -/
def removeConstraint (st : AdapterState) (tableName columnName : String)
    (constraint : ConstraintKind) (now : String) (nowMs : Nat) (fa : Nat → Bool) :
    AdapterState × Except String Unit :=
  match st.db.getTable tableName with
  | none => (st, .error "Table does not exist")
  | some table =>
    if (table.fields.find? (fun f => f.name == columnName)).isNone then
      (st, .error "Column does not exist")
    else
      runMutation st (fun db => do
        match constraint with
        | .required =>
          let r1 ← runExec fa 0 (fun d => .ok (d.updateFieldRows table.id columnName
            (fun r => { r with required := false, updatedAt := now }))) db
          let r2 ← rebuildTableWithoutConstraint tableName columnName "NOT NULL"
            nowMs fa r1.2 r1.1
          .ok (r2.1, ())
        | .unique =>
          let r1 ← runExec fa 0 (fun d => .ok (d.updateFieldRows table.id columnName
            (fun r => { r with unique := false, updatedAt := now }))) db
          let r2 ← rebuildTableWithoutConstraint tableName columnName "UNIQUE"
            nowMs fa r1.2 r1.1
          .ok (r2.1, ()))

/-- `SchemaService.renameColumn`. -/
def renameColumn (st : AdapterState) (tableName oldColumnName newColumnName : String)
    (now : String) (fa : Nat → Bool) : AdapterState × Except String Unit :=
  match st.db.getTable tableName with
  | none => (st, .error "Table does not exist")
  | some table =>
    if systemColumns.contains oldColumnName then
      (st, .error "Cannot rename system column")
    else if (table.fields.find? (fun f => f.name == oldColumnName)).isNone then
      (st, .error "Column does not exist")
    else if newColumnName = "" || jsTrim newColumnName = "" then
      (st, .error "New column name cannot be empty")
    else
      let trimmedNewName := jsTrim newColumnName
      if oldColumnName = trimmedNewName then
        (st, .ok ())
      else if !isValidIdent trimmedNewName then
        (st, .error "New column name must be a valid identifier")
      else if systemColumns.contains trimmedNewName then
        (st, .error "Cannot use system column name")
      else if (table.fields.find? (fun f => f.name == trimmedNewName)).isSome then
        (st, .error "Column already exists")
      else
        runMutation st (fun db => do
          let r1 ← runExec fa 0
            (fun d => d.updateFieldName table.id oldColumnName trimmedNewName now) db
          let r2 ← runExec fa r1.2
            (fun d => d.renamePhysCol tableName oldColumnName trimmedNewName) r1.1
          .ok (r2.1, ()))

end SchemaService

/-! ## Example states used by witnesses and counterexamples -/

def exDB0 : DBState := { tables := [], fields := [], phys := [] }

def exSt0 : AdapterState :=
  { connected := true, inTransaction := false, db := exDB0, snapshot := none }

def exGen : Nat → String := fun i => "F" ++ natToDecimal i

def noFaults : Nat → Bool := fun _ => false

def allFaults : Nat → Bool := fun _ => true

def exTotal : FieldInput :=
  { name := "total", displayName := "Total", ftype := .number,
    required := some true, unique := none, defaultValue := none, description := none }

def exOrders : TableInput :=
  { name := "orders", displayName := "Orders", description := none, fields := [exTotal] }

/-- State after creating the `orders` table of the scenario in §8 of the spec. -/
def exSt1 : AdapterState :=
  (SchemaService.createTable exSt0 exOrders "T1" exGen "t0" noFaults).1

/-! ## Transaction-layer lemmas -/

theorem ebind_ok {α β : Type} (a : α) (f : α → Except String β) :
    (Bind.bind (Except.ok a) f : Except String β) = f a := rfl

theorem ebind_error {α β : Type} (e : String) (f : α → Except String β) :
    (Bind.bind (Except.error e : Except String α) f : Except String β) = .error e := rfl

theorem beginTransaction_ok {st st1 : AdapterState}
    (h : beginTransaction st = .ok st1) :
    st.connected = true ∧ st.inTransaction = false ∧
      st1 = { st with inTransaction := true, snapshot := some st.db } := by
  unfold beginTransaction at h
  split_ifs at h with h1 h2
  · cases h
    refine ⟨?_, ?_, rfl⟩
    · cases hcon : st.connected
      · simp [hcon] at h1
      · rfl
    · cases hit : st.inTransaction
      · rfl
      · simp [hit] at h2

/-- Any error outcome of the shared begin/try/commit/rollback skeleton leaves
the database and the transaction flag as they were before the call. -/
theorem runMutation_error {α : Type} {st : AdapterState}
    {body : DBState → Except String (DBState × α)} {e : String}
    (h : (runMutation st body).2 = .error e) :
    (runMutation st body).1.db = st.db ∧
      (runMutation st body).1.inTransaction = st.inTransaction := by
  unfold runMutation at h ⊢
  cases hb : beginTransaction st with
  | error e2 => simp [hb]
  | ok st1 =>
    obtain ⟨hc, hn, hst1⟩ := beginTransaction_ok hb
    subst hst1
    simp only [hb] at h ⊢
    cases hbody : body st.db with
    | ok pa =>
      simp only [hbody] at h ⊢
      simp [commit, hc] at h
    | error e3 =>
      simp only [hbody] at h ⊢
      simp [rollback, hc, hn]

/-- A successful outcome of the skeleton commits the body's database. -/
theorem runMutation_ok {α : Type} {st : AdapterState}
    {body : DBState → Except String (DBState × α)} {a : α}
    (h : (runMutation st body).2 = .ok a) :
    st.connected = true ∧ st.inTransaction = false ∧
      ∃ db2, body st.db = .ok (db2, a) ∧
        (runMutation st body).1 =
          { st with db := db2, inTransaction := false, snapshot := none } := by
  unfold runMutation at h ⊢
  cases hb : beginTransaction st with
  | error e2 => simp [hb] at h
  | ok st1 =>
    obtain ⟨hc, hn, hst1⟩ := beginTransaction_ok hb
    subst hst1
    simp only [hb] at h ⊢
    refine ⟨hc, hn, ?_⟩
    cases hbody : body st.db with
    | ok pa =>
      obtain ⟨db2, a2⟩ := pa
      simp only [hbody] at h ⊢
      simp only [commit, hc, Bool.not_true, Bool.false_eq_true, if_false] at h ⊢
      simp at h
      exact ⟨db2, by simp [h], rfl⟩
    | error e3 =>
      simp only [hbody] at h ⊢
      simp [rollback, hc, hn] at h

/-- If the body can only fail with errors different from `msg`, and `msg` is
none of the adapter's own transaction-control errors, then the whole mutation
cannot fail with `msg`. -/
theorem runMutation_error_ne {α : Type} {st : AdapterState}
    {body : DBState → Except String (DBState × α)} (msg : String)
    (hbody : ∀ db e, body db = .error e → e ≠ msg)
    (h1 : msg ≠ "Database not connected")
    (h2 : msg ≠ "Transaction already in progress")
    (h3 : msg ≠ "No transaction in progress") :
    (runMutation st body).2 ≠ .error msg := by
  unfold runMutation
  cases hb : beginTransaction st with
  | error e2 =>
    have : e2 = "Database not connected" ∨ e2 = "Transaction already in progress" := by
      unfold beginTransaction at hb
      split_ifs at hb <;> simp_all
    rcases this with h | h <;> subst h <;> simp [Ne.symm h1, Ne.symm h2]
  | ok st1 =>
    obtain ⟨hc, hn, hst1⟩ := beginTransaction_ok hb
    subst hst1
    cases hbody2 : body st.db with
    | ok pa =>
      obtain ⟨db2, a2⟩ := pa
      simp only [hbody2]
      simp [commit, hc]
    | error e3 =>
      simp only [hbody2]
      simp only [rollback, commit, hc, hn]
      simp only [Bool.not_true, Bool.false_eq_true, if_false, if_true]
      intro hcontra
      simp at hcontra
      exact hbody (st.db) e3 hbody2 (by simp [hcontra])

/-! ## Error-frame lemmas: every operation leaves the state intact on failure -/

theorem createTable_error_frame {st input tid fids now fa e}
    (h : (SchemaService.createTable st input tid fids now fa).2 = .error e) :
    (SchemaService.createTable st input tid fids now fa).1.db = st.db ∧
      (SchemaService.createTable st input tid fids now fa).1.inTransaction =
        st.inTransaction := by
  unfold SchemaService.createTable at h ⊢
  cases hp : parseTable input with
  | error e2 => simp [hp]
  | ok v =>
    simp only [hp] at h ⊢
    split_ifs at h ⊢
    · simp
    · exact runMutation_error h

theorem deleteTable_error_frame {st tableName fa e}
    (h : (SchemaService.deleteTable st tableName fa).2 = .error e) :
    (SchemaService.deleteTable st tableName fa).1.db = st.db ∧
      (SchemaService.deleteTable st tableName fa).1.inTransaction = st.inTransaction := by
  unfold SchemaService.deleteTable at h ⊢
  cases hg : st.db.getTable tableName with
  | none => simp [hg]
  | some t =>
    simp only [hg] at h ⊢
    exact runMutation_error h

theorem addColumn_error_frame {st tableName fd fid now fa e}
    (h : (SchemaService.addColumn st tableName fd fid now fa).2 = .error e) :
    (SchemaService.addColumn st tableName fd fid now fa).1.db = st.db ∧
      (SchemaService.addColumn st tableName fd fid now fa).1.inTransaction =
        st.inTransaction := by
  unfold SchemaService.addColumn at h ⊢
  cases hg : st.db.getTable tableName with
  | none => simp [hg]
  | some t =>
    simp only [hg] at h ⊢
    cases hp : parseField fd with
    | error e2 => simp [hp]
    | ok v =>
      simp only [hp] at h ⊢
      split_ifs at h ⊢
      · simp
      · simp
      · exact runMutation_error h

theorem deleteColumn_error_frame {st tableName columnName fa e}
    (h : (SchemaService.deleteColumn st tableName columnName fa).2 = .error e) :
    (SchemaService.deleteColumn st tableName columnName fa).1.db = st.db ∧
      (SchemaService.deleteColumn st tableName columnName fa).1.inTransaction =
        st.inTransaction := by
  unfold SchemaService.deleteColumn at h ⊢
  cases hg : st.db.getTable tableName with
  | none => simp [hg]
  | some t =>
    simp only [hg] at h ⊢
    split_ifs at h ⊢
    · simp
    · simp
    · exact runMutation_error h

theorem updateColumnMetadata_error_frame {st tableName columnName dn ds now fa e}
    (h : (SchemaService.updateColumnMetadata st tableName columnName dn ds now fa).2 =
        .error e) :
    (SchemaService.updateColumnMetadata st tableName columnName dn ds now fa).1.db = st.db ∧
      (SchemaService.updateColumnMetadata st tableName columnName dn ds now fa).1.inTransaction =
        st.inTransaction := by
  unfold SchemaService.updateColumnMetadata at h ⊢
  cases hg : st.db.getTable tableName with
  | none => simp [hg]
  | some t =>
    simp only [hg] at h ⊢
    split_ifs at h ⊢ <;> first
      | simp
      | exact runMutation_error h

theorem removeConstraint_error_frame {st tableName columnName ck now nowMs fa e}
    (h : (SchemaService.removeConstraint st tableName columnName ck now nowMs fa).2 =
        .error e) :
    (SchemaService.removeConstraint st tableName columnName ck now nowMs fa).1.db = st.db ∧
      (SchemaService.removeConstraint st tableName columnName ck now nowMs fa).1.inTransaction =
        st.inTransaction := by
  unfold SchemaService.removeConstraint at h ⊢
  cases hg : st.db.getTable tableName with
  | none => simp [hg]
  | some t =>
    simp only [hg] at h ⊢
    split_ifs at h ⊢
    · simp
    · exact runMutation_error h

theorem renameColumn_error_frame {st tableName oldName newName now fa e}
    (h : (SchemaService.renameColumn st tableName oldName newName now fa).2 = .error e) :
    (SchemaService.renameColumn st tableName oldName newName now fa).1.db = st.db ∧
      (SchemaService.renameColumn st tableName oldName newName now fa).1.inTransaction =
        st.inTransaction := by
  unfold SchemaService.renameColumn at h ⊢
  cases hg : st.db.getTable tableName with
  | none => simp [hg]
  | some t =>
    simp only [hg] at h ⊢
    split_ifs at h ⊢ <;> first
      | simp
      | exact runMutation_error h

/-- Claim C1: for every schema mutation (createTable, deleteTable, addColumn,
deleteColumn, updateColumnMetadata, removeConstraint, renameColumn), any
failure — in particular the failure of any step after the transaction has
opened, injected here through the fault oracle — is preceded by a rollback:
the returned state's database (catalog and physical schema, hence everything
observable through `DBState.getTable`) and its transaction flag are exactly
those of the pre-call state. -/
theorem C1_schema_mutations_atomic :
    (∀ st input tid fids now fa e,
      (SchemaService.createTable st input tid fids now fa).2 = .error e →
      (SchemaService.createTable st input tid fids now fa).1.db = st.db ∧
        (SchemaService.createTable st input tid fids now fa).1.inTransaction =
          st.inTransaction) ∧
    (∀ st tableName fa e,
      (SchemaService.deleteTable st tableName fa).2 = .error e →
      (SchemaService.deleteTable st tableName fa).1.db = st.db ∧
        (SchemaService.deleteTable st tableName fa).1.inTransaction = st.inTransaction) ∧
    (∀ st tableName fd fid now fa e,
      (SchemaService.addColumn st tableName fd fid now fa).2 = .error e →
      (SchemaService.addColumn st tableName fd fid now fa).1.db = st.db ∧
        (SchemaService.addColumn st tableName fd fid now fa).1.inTransaction =
          st.inTransaction) ∧
    (∀ st tableName columnName fa e,
      (SchemaService.deleteColumn st tableName columnName fa).2 = .error e →
      (SchemaService.deleteColumn st tableName columnName fa).1.db = st.db ∧
        (SchemaService.deleteColumn st tableName columnName fa).1.inTransaction =
          st.inTransaction) ∧
    (∀ st tableName columnName dn ds now fa e,
      (SchemaService.updateColumnMetadata st tableName columnName dn ds now fa).2 =
          .error e →
      (SchemaService.updateColumnMetadata st tableName columnName dn ds now fa).1.db =
          st.db ∧
        (SchemaService.updateColumnMetadata st tableName columnName dn ds now
            fa).1.inTransaction = st.inTransaction) ∧
    (∀ st tableName columnName ck now nowMs fa e,
      (SchemaService.removeConstraint st tableName columnName ck now nowMs fa).2 =
          .error e →
      (SchemaService.removeConstraint st tableName columnName ck now nowMs fa).1.db =
          st.db ∧
        (SchemaService.removeConstraint st tableName columnName ck now nowMs
            fa).1.inTransaction = st.inTransaction) ∧
    (∀ st tableName oldName newName now fa e,
      (SchemaService.renameColumn st tableName oldName newName now fa).2 = .error e →
      (SchemaService.renameColumn st tableName oldName newName now fa).1.db = st.db ∧
        (SchemaService.renameColumn st tableName oldName newName now fa).1.inTransaction =
          st.inTransaction) :=
  ⟨fun _ _ _ _ _ _ _ h => createTable_error_frame h,
   fun _ _ _ _ h => deleteTable_error_frame h,
   fun _ _ _ _ _ _ _ h => addColumn_error_frame h,
   fun _ _ _ _ _ h => deleteColumn_error_frame h,
   fun _ _ _ _ _ _ _ _ h => updateColumnMetadata_error_frame h,
   fun _ _ _ _ _ _ _ _ h => removeConstraint_error_frame h,
   fun _ _ _ _ _ _ _ h => renameColumn_error_frame h⟩

def exNote : FieldInput :=
  { name := "note", displayName := "Note", ftype := .string,
    required := none, unique := none, defaultValue := none, description := none }

/-- Witness for C1: each of the seven mutations, run with a fault injected on
its first in-transaction statement, fails and leaves database and transaction
flag untouched. -/
theorem C1_schema_mutations_atomic_witness :
    ((SchemaService.createTable exSt0 exOrders "T1" exGen "t0" allFaults).1.db = exSt0.db ∧
      (SchemaService.createTable exSt0 exOrders "T1" exGen "t0" allFaults).1.inTransaction =
        exSt0.inTransaction) ∧
    ((SchemaService.deleteTable exSt1 "orders" allFaults).1.db = exSt1.db ∧
      (SchemaService.deleteTable exSt1 "orders" allFaults).1.inTransaction =
        exSt1.inTransaction) ∧
    ((SchemaService.addColumn exSt1 "orders" exNote "F9" "t1" allFaults).1.db = exSt1.db ∧
      (SchemaService.addColumn exSt1 "orders" exNote "F9" "t1" allFaults).1.inTransaction =
        exSt1.inTransaction) ∧
    ((SchemaService.deleteColumn exSt1 "orders" "total" allFaults).1.db = exSt1.db ∧
      (SchemaService.deleteColumn exSt1 "orders" "total" allFaults).1.inTransaction =
        exSt1.inTransaction) ∧
    ((SchemaService.updateColumnMetadata exSt1 "orders" "total" (some "Sum") none "t1"
        allFaults).1.db = exSt1.db ∧
      (SchemaService.updateColumnMetadata exSt1 "orders" "total" (some "Sum") none "t1"
        allFaults).1.inTransaction = exSt1.inTransaction) ∧
    ((SchemaService.removeConstraint exSt1 "orders" "total" .required "t1" 5
        allFaults).1.db = exSt1.db ∧
      (SchemaService.removeConstraint exSt1 "orders" "total" .required "t1" 5
        allFaults).1.inTransaction = exSt1.inTransaction) ∧
    ((SchemaService.renameColumn exSt1 "orders" "total" "amount" "t1" allFaults).1.db =
        exSt1.db ∧
      (SchemaService.renameColumn exSt1 "orders" "total" "amount" "t1"
        allFaults).1.inTransaction = exSt1.inTransaction) :=
  ⟨C1_schema_mutations_atomic.1 exSt0 exOrders "T1" exGen "t0" allFaults
      "injected storage failure" (by rfl),
   C1_schema_mutations_atomic.2.1 exSt1 "orders" allFaults
      "injected storage failure" (by rfl),
   C1_schema_mutations_atomic.2.2.1 exSt1 "orders" exNote "F9" "t1" allFaults
      "injected storage failure" (by rfl),
   C1_schema_mutations_atomic.2.2.2.1 exSt1 "orders" "total" allFaults
      "injected storage failure" (by rfl),
   C1_schema_mutations_atomic.2.2.2.2.1 exSt1 "orders" "total" (some "Sum") none "t1"
      allFaults "injected storage failure" (by rfl),
   C1_schema_mutations_atomic.2.2.2.2.2.1 exSt1 "orders" "total" .required "t1" 5
      allFaults "injected storage failure" (by rfl),
   C1_schema_mutations_atomic.2.2.2.2.2.2 exSt1 "orders" "total" "amount" "t1"
      allFaults "injected storage failure" (by rfl)⟩

/-- Evaluation rule for the transactional skeleton on a ready adapter with a
successful body. -/
theorem runMutation_eval {α : Type} {st : AdapterState}
    {body : DBState → Except String (DBState × α)} {db2 : DBState} {a : α}
    (hc : st.connected = true) (hn : st.inTransaction = false)
    (hbody : body st.db = .ok (db2, a)) :
    runMutation st body =
      ({ st with db := db2, inTransaction := false, snapshot := none }, .ok a) := by
  have hb : beginTransaction st =
      .ok { st with inTransaction := true, snapshot := some st.db } := by
    simp [beginTransaction, hc, hn]
  unfold runMutation
  rw [hb]
  simp only [hbody]
  simp [commit, hc]

/-! ## Claim C8: adapter transaction state machine -/

/-- Claim C8: on a connected adapter with no open transaction, commit and
rollback fail explicitly; beginTransaction succeeds and sets the flag; a
second beginTransaction while the transaction is open fails explicitly
(returning an error and no new state, so no transaction is stacked); and a
commit or rollback after the successful begin returns the adapter to the
no-open-transaction state. -/
theorem C8_transaction_state_machine (st : AdapterState)
    (hc : st.connected = true) (hn : st.inTransaction = false) :
    commit st = .error "No transaction in progress" ∧
    rollback st = .error "No transaction in progress" ∧
    ∃ st1, beginTransaction st = .ok st1 ∧ st1.inTransaction = true ∧
      beginTransaction st1 = .error "Transaction already in progress" ∧
      (∃ st2, commit st1 = .ok st2 ∧ st2.inTransaction = false) ∧
      (∃ st3, rollback st1 = .ok st3 ∧ st3.inTransaction = false) := by
  refine ⟨by simp [commit, hc, hn], by simp [rollback, hc, hn],
    { st with inTransaction := true, snapshot := some st.db },
    by simp [beginTransaction, hc, hn], rfl, by simp [beginTransaction, hc],
    ⟨{ st with inTransaction := false, snapshot := none },
      by simp [commit, hc], rfl⟩,
    ⟨{ st with inTransaction := false, db := st.db, snapshot := none },
      by simp [rollback, hc], rfl⟩⟩

/-- Witness for C8 on the concrete initial adapter state. -/
theorem C8_transaction_state_machine_witness :
    commit exSt0 = .error "No transaction in progress" ∧
    rollback exSt0 = .error "No transaction in progress" ∧
    ∃ st1, beginTransaction exSt0 = .ok st1 ∧ st1.inTransaction = true ∧
      beginTransaction st1 = .error "Transaction already in progress" ∧
      (∃ st2, commit st1 = .ok st2 ∧ st2.inTransaction = false) ∧
      (∃ st3, rollback st1 = .ok st3 ∧ st3.inTransaction = false) :=
  C8_transaction_state_machine exSt0 (by rfl) (by rfl)

/-! ## Claim C7: renameColumn with an unchanged (trimmed) name is a no-op -/

/-- Claim C7: for an existing table T and an existing non-system column X of
T, any renameColumn call whose trimmed new name equals X — in particular
renameColumn(T, X, X) — returns without error and is a no-op: the returned
state is exactly the pre-call state (no catalog change, no physical change,
no transaction opened). -/
theorem C7_renameColumn_same_noop (st : AdapterState) (T X newName now : String)
    (fa : Nat → Bool)
    (hfind : ((st.db.getTable T).map
      (fun t => (t.fields.find? (fun f => f.name == X)).isSome)).getD false = true)
    (hsys : SchemaService.systemColumns.contains X = false)
    (hne : X ≠ "")
    (htrim : jsTrim newName = X) :
    SchemaService.renameColumn st T X newName now fa = (st, .ok ()) := by
  unfold SchemaService.renameColumn
  cases ht : st.db.getTable T with
  | none => rw [ht] at hfind; simp at hfind
  | some tbl =>
    rw [ht] at hfind
    simp only [Option.map, Option.getD] at hfind
    have hnone : (tbl.fields.find? (fun f => f.name == X)).isNone = false := by
      cases hopt : tbl.fields.find? (fun f => f.name == X) <;> simp_all
    have hne2 : newName ≠ "" := by
      intro hcontra
      rw [hcontra] at htrim
      exact hne (htrim.symm.trans (by rfl))
    have hsysmem : X ∉ SchemaService.systemColumns := by
      intro hmem
      rw [List.contains_eq_any_beq] at hsys
      simp [List.any_eq_true] at hsys
      exact hsys X hmem rfl
    simp [hsys, hsysmem, hnone, hne2, htrim, hne]

/-- Witness for C7: renaming `total` to `" total "` (same name after trim) on
the scenario state is accepted and changes nothing. -/
theorem C7_renameColumn_same_noop_witness :
    SchemaService.renameColumn exSt1 "orders" "total" " total " "t9" noFaults =
      (exSt1, .ok ()) :=
  C7_renameColumn_same_noop exSt1 "orders" "total" " total " "t9" noFaults
    (by rfl) (by rfl) (by decide) (by rfl)

/-! ## Claim C10: deleteTable and the conditional physical drop -/

/-- The try block of deleteTable can only fail through fault injection. -/
theorem deleteTable_body_error {tableName : String} {fa : Nat → Bool} {db : DBState}
    {e : String}
    (h : (do
        let r1 ← runExec fa 0 (fun d => .ok (d.dropPhysIfExists tableName)) db
        let r2 ← runExec fa r1.2 (fun d => .ok (d.deleteCatalogTable tableName)) r1.1
        (.ok (r2.1, ()) : Except String (DBState × Unit))) = .error e) :
    e = "injected storage failure" := by
  cases h0 : fa 0 <;>
    simp only [runExec, h0, Bool.false_eq_true, if_false, if_true,
      ebind_ok, ebind_error] at h
  · cases h1 : fa 1 <;>
      simp only [h1, Bool.false_eq_true, if_false, if_true, ebind_ok, ebind_error] at h
    · cases h
    · injection h with h2
      exact h2.symm
  · injection h with h2
    exact h2.symm

/-- Claim C10: deleteTable fails with the not-found error exactly when no
catalog row with that name exists; and when the catalog row exists but the
physical table is already absent, deleteTable (with no storage faults)
still succeeds — the physical drop is `DROP TABLE IF EXISTS` — and removes
the catalog row. -/
theorem C10_deleteTable_notfound_iff :
    (∀ st tableName fa,
      (SchemaService.deleteTable st tableName fa).2 = .error "Table not found" ↔
        st.db.getTable tableName = none) ∧
    (∀ st tableName, st.connected = true → st.inTransaction = false →
      (st.db.getTable tableName).isSome = true →
      st.db.physTable tableName = none →
      (SchemaService.deleteTable st tableName noFaults).2 = .ok () ∧
        (SchemaService.deleteTable st tableName noFaults).1.db.getTable tableName =
          none) := by
  constructor
  · intro st tableName fa
    unfold SchemaService.deleteTable
    cases hg : st.db.getTable tableName with
    | none => simp
    | some t =>
      constructor
      · intro h
        exact absurd h (runMutation_error_ne "Table not found"
          (fun db e hb => by rw [deleteTable_body_error hb]; decide)
          (by decide) (by decide) (by decide))
      · intro h; cases h
  · intro st tableName hc hn hsome _hphys
    unfold SchemaService.deleteTable
    cases hg : st.db.getTable tableName with
    | none => rw [hg] at hsome; simp at hsome
    | some t =>
      have hbody : (do
          let r1 ← runExec noFaults 0
            (fun d => .ok (d.dropPhysIfExists tableName)) st.db
          let r2 ← runExec noFaults r1.2
            (fun d => .ok (d.deleteCatalogTable tableName)) r1.1
          (.ok (r2.1, ()) : Except String (DBState × Unit))) =
          .ok ((st.db.dropPhysIfExists tableName).deleteCatalogTable tableName, ()) := rfl
      rw [runMutation_eval hc hn hbody]
      refine ⟨rfl, ?_⟩
      unfold DBState.getTable
      have : (((st.db.dropPhysIfExists tableName).deleteCatalogTable
          tableName).tables.find? (fun t2 => t2.name == tableName)) = none := by
        rw [List.find?_eq_none]
        intro x hx
        simp only [DBState.deleteCatalogTable, DBState.dropPhysIfExists,
          List.mem_filter] at hx
        simpa using hx.2
      rw [this]

/-- Witness for C10: on a state whose catalog has `orders` but whose physical
store is empty, deleteTable succeeds and the catalog row is gone. -/
theorem C10_deleteTable_notfound_iff_witness :
    (SchemaService.deleteTable
        { exSt1 with db := { exSt1.db with phys := [] } } "orders" noFaults).2 = .ok () ∧
    (SchemaService.deleteTable
        { exSt1 with db := { exSt1.db with phys := [] } } "orders"
        noFaults).1.db.getTable "orders" = none :=
  C10_deleteTable_notfound_iff.2
    { exSt1 with db := { exSt1.db with phys := [] } } "orders"
    (by rfl) (by rfl) (by rfl) (by rfl)

/-! ## Error characterization helpers -/

theorem ebind_error_elim {α β : Type} {m : Except String α} {f : α → Except String β}
    {e : String} (h : (Bind.bind m f : Except String β) = .error e) :
    m = .error e ∨ ∃ a, m = .ok a ∧ f a = .error e := by
  cases m with
  | error e2 =>
    left
    rw [ebind_error] at h
    injection h with h2
    rw [h2]
  | ok a =>
    right
    rw [ebind_ok] at h
    exact ⟨a, rfl, h⟩

theorem runExec_error {fa : Nat → Bool} {k : Nat} {op : DBState → Except String DBState}
    {db : DBState} {e : String} (h : runExec fa k op db = .error e) :
    e = "injected storage failure" ∨ op db = .error e := by
  unfold runExec at h
  split_ifs at h
  · left
    injection h with h2
    exact h2.symm
  · cases hop : op db <;> rw [hop] at h
    · right
      injection h with h2
      rw [h2]
    · cases h

theorem insertFieldRow_error {db : DBState} {r : FieldRow} {e : String}
    (h : db.insertFieldRow r = .error e) :
    e = "UNIQUE constraint failed: _spinekit_fields" ∨
      e = "FOREIGN KEY constraint failed" := by
  unfold DBState.insertFieldRow at h
  split_ifs at h
  · left; injection h with h2; exact h2.symm
  · right; injection h with h2; exact h2.symm

theorem addPhysCol_error {db : DBState} {name : String} {col : PhysCol} {e : String}
    (h : db.addPhysCol name col = .error e) :
    e = "no such table" ∨ e = "duplicate column name" := by
  unfold DBState.addPhysCol at h
  split at h
  · left; injection h with h2; exact h2.symm
  · split_ifs at h
    right; injection h with h2; exact h2.symm

/-! ## Claim C5: the required-without-default rule and JS truthiness -/

def exFlagNoDef : FieldInput :=
  { name := "flag", displayName := "Flag", ftype := .boolean,
    required := some true, unique := none, defaultValue := none, description := none }

def exFlagFalse : FieldInput := { exFlagNoDef with defaultValue := some (.bool false) }

def exFlagTrue : FieldInput := { exFlagNoDef with defaultValue := some (.bool true) }

/-- Counterexample C5: `addColumn` with `required: true` and
`defaultValue: false` — a field carrying a default value — is nonetheless
rejected by the required-without-default rule, because the check uses JS
truthiness (`!validated.defaultValue`) and `false` is falsy. -/
theorem C5_counterexample :
    SchemaService.addColumn exSt1 "orders" exFlagFalse "FA" "t4" noFaults =
      (exSt1, .error SchemaService.requiredDefaultMsg) := rfl

/-- Claim C5 (amended): addColumn with a required field and no truthy default
value (no default at all, or a falsy one: false, 0, the empty string) is
rejected as a validation error before any transaction opens, leaving the
state — in particular the table's field list — exactly unchanged; with a
truthy default value the call is never rejected by the
required-without-default rule. -/
theorem C5_required_default_rule :
    (∀ st T fd fid now fa,
      ((st.db.getTable T).map
        (fun t => (t.fields.find? (fun f => f.name == fd.name)).isNone)).getD false =
          true →
      isValidIdent fd.name = true →
      fd.displayName ≠ "" →
      fd.required = some true →
      jsTruthy fd.defaultValue = false →
      SchemaService.addColumn st T fd fid now fa =
        (st, .error SchemaService.requiredDefaultMsg)) ∧
    (∀ st T fd fid now fa,
      jsTruthy fd.defaultValue = true →
      (SchemaService.addColumn st T fd fid now fa).2 ≠
        .error SchemaService.requiredDefaultMsg) := by
  constructor
  · intro st T fd fid now fa hfind hv hd hreq hdef
    unfold SchemaService.addColumn
    cases ht : st.db.getTable T with
    | none => rw [ht] at hfind; simp at hfind
    | some tbl =>
      rw [ht] at hfind
      simp only [Option.map, Option.getD] at hfind
      have hp : parseField fd = .ok
          { name := fd.name, displayName := fd.displayName, ftype := fd.ftype,
            required := fd.required.getD false, unique := fd.unique.getD false,
            defaultValue := fd.defaultValue, description := fd.description } := by
        unfold parseField
        simp [hv, hd]
      rw [hp]
      have hfindSome : (tbl.fields.find? (fun f => f.name == fd.name)).isSome = false := by
        cases hopt : tbl.fields.find? (fun f => f.name == fd.name) <;> simp_all
      simp [hfindSome, hreq, hdef]
  · intro st T fd fid now fa hdef
    unfold SchemaService.addColumn
    cases ht : st.db.getTable T with
    | none =>
      intro h
      have h2 : (Except.error "Table does not exist" : Except String Unit) =
          .error SchemaService.requiredDefaultMsg := h
      injection h2 with h3
      exact absurd h3 (by decide)
    | some tbl =>
      cases hp : parseField fd with
      | error e2 =>
        have he2 : e2 ≠ SchemaService.requiredDefaultMsg := by
          unfold parseField at hp
          split_ifs at hp <;> (injection hp with h3; rw [← h3]; decide)
        intro h
        have h2 : (Except.error e2 : Except String Unit) =
            .error SchemaService.requiredDefaultMsg := h
        injection h2 with h3
        exact he2 h3
      | ok v =>
        have hvdef : v.defaultValue = fd.defaultValue := by
          unfold parseField at hp
          split_ifs at hp
          injection hp with h3
          rw [← h3]
        have hrule : (v.required && !jsTruthy v.defaultValue) = false := by
          rw [hvdef, hdef]
          simp
        by_cases hdup : (tbl.fields.find? (fun f => f.name == v.name)).isSome = true
        · intro h
          simp [hdup] at h
          exact absurd h (by decide)
        · simp only [hdup, Bool.false_eq_true, if_false, hrule]
          apply runMutation_error_ne
          · intro db e hb
            rcases ebind_error_elim hb with h1 | ⟨a, _, h2⟩
            · rcases runExec_error h1 with h3 | h3
              · rw [h3]; decide
              · rcases insertFieldRow_error h3 with h4 | h4 <;> rw [h4] <;> decide
            · rcases ebind_error_elim h2 with h5 | ⟨a2, _, h6⟩
              · rcases runExec_error h5 with h7 | h7
                · rw [h7]; decide
                · rcases addPhysCol_error h7 with h8 | h8 <;> rw [h8] <;> decide
              · cases h6
          · decide
          · decide
          · decide

/-- Witness for C5: on the scenario state, a required boolean column with no
default is rejected with the validation error and the state is unchanged,
while the same column with default `true` is not rejected by that rule. -/
theorem C5_required_default_rule_witness :
    SchemaService.addColumn exSt1 "orders" exFlagNoDef "FA" "t4" noFaults =
      (exSt1, .error SchemaService.requiredDefaultMsg) ∧
    (SchemaService.addColumn exSt1 "orders" exFlagTrue "FA" "t4" noFaults).2 ≠
      .error SchemaService.requiredDefaultMsg :=
  ⟨C5_required_default_rule.1 exSt1 "orders" exFlagNoDef "FA" "t4" noFaults
      (by rfl) (by rfl) (by decide) (by rfl) (by rfl),
   C5_required_default_rule.2 exSt1 "orders" exFlagTrue "FA" "t4" noFaults (by rfl)⟩

/-! ## Claim C3: temporary relation names of the rebuild -/

theorem natToDecimalAux_eq_digits :
    ∀ n fuel, n ≤ fuel →
      natToDecimalAux fuel n = ((Nat.digits 10 n).reverse).map Nat.digitChar := by
  intro n
  induction n using Nat.strong_induction_on with
  | _ n ih =>
    intro fuel hfuel
    match fuel with
    | 0 =>
      have hn : n = 0 := Nat.le_zero.mp hfuel
      subst hn
      simp [natToDecimalAux]
    | fuel + 1 =>
      by_cases hn : n = 0
      · subst hn
        simp [natToDecimalAux]
      · have h1 : 0 < n := Nat.pos_of_ne_zero hn
        have h2 : n / 10 < n := Nat.div_lt_self h1 (by norm_num)
        have h3 : n / 10 ≤ fuel := by omega
        rw [natToDecimalAux, if_neg hn, ih (n / 10) h2 fuel h3,
          Nat.digits_def' (by norm_num : 1 < 10) h1]
        simp

theorem digitChar_inj_lt {a b : Nat} (ha : a < 10) (hb : b < 10)
    (h : Nat.digitChar a = Nat.digitChar b) : a = b := by
  interval_cases a <;> interval_cases b <;> first
    | rfl
    | (revert h; decide)

theorem map_digitChar_inj :
    ∀ {l1 l2 : List Nat}, (∀ d ∈ l1, d < 10) → (∀ d ∈ l2, d < 10) →
      l1.map Nat.digitChar = l2.map Nat.digitChar → l1 = l2 := by
  intro l1
  induction l1 with
  | nil =>
    intro l2 _ _ h
    cases l2 with
    | nil => rfl
    | cons b t => simp at h
  | cons a t ih =>
    intro l2 h1 h2 h
    cases l2 with
    | nil => simp at h
    | cons b t2 =>
      simp only [List.map_cons, List.cons.injEq] at h
      have hab := digitChar_inj_lt (h1 a (by simp)) (h2 b (by simp)) h.1
      have ht := ih (fun d hd => h1 d (by simp [hd])) (fun d hd => h2 d (by simp [hd])) h.2
      rw [hab, ht]

theorem digits_map_digitChar_ne_zero {m : Nat} (hm : m ≠ 0)
    (h : ((Nat.digits 10 m).reverse).map Nat.digitChar = ['0']) : False := by
  cases hd : (Nat.digits 10 m).reverse with
  | nil => rw [hd] at h; simp at h
  | cons d rest =>
    rw [hd] at h
    simp only [List.map_cons, List.cons.injEq] at h
    have hrest : rest = [] := by
      have := h.2
      cases rest with
      | nil => rfl
      | cons x xs => simp at this
    have hdmem : d ∈ Nat.digits 10 m := by
      have : d ∈ (Nat.digits 10 m).reverse := by rw [hd]; simp
      exact List.mem_reverse.mp this
    have hdlt : d < 10 := Nat.digits_lt_base (by norm_num) hdmem
    have hd0 : d = 0 := digitChar_inj_lt hdlt (by norm_num) (by rw [h.1]; rfl)
    have hdig : Nat.digits 10 m = [0] := by
      have hrev : (Nat.digits 10 m).reverse = [d] := by rw [hd, hrest]
      have := congrArg List.reverse hrev
      simpa [hd0] using this
    have := Nat.ofDigits_digits 10 m
    rw [hdig] at this
    simp [Nat.ofDigits] at this
    exact hm this.symm

theorem string_data_inj {s t : String} (h : s.data = t.data) : s = t :=
  String.ext h

theorem natToDecimal_inj {n m : Nat} (h : natToDecimal n = natToDecimal m) : n = m := by
  unfold natToDecimal at h
  have hlt : ∀ k d, d ∈ (Nat.digits 10 k).reverse → d < 10 := fun k d hd =>
    Nat.digits_lt_base (by norm_num) (List.mem_reverse.mp hd)
  split_ifs at h with h1 h2 h2
  · rw [h1, h2]
  · exfalso
    rw [natToDecimalAux_eq_digits m m le_rfl] at h
    have hdata := congrArg String.data h
    simp only [String.data] at hdata
    exact digits_map_digitChar_ne_zero h2 (by simpa using hdata.symm)
  · exfalso
    rw [natToDecimalAux_eq_digits n n le_rfl] at h
    have hdata := congrArg String.data h
    simp only [String.data] at hdata
    exact digits_map_digitChar_ne_zero h1 (by simpa using hdata)
  · rw [natToDecimalAux_eq_digits n n le_rfl,
      natToDecimalAux_eq_digits m m le_rfl] at h
    have hdata := congrArg String.data h
    simp only [String.data] at hdata
    have hrev := map_digitChar_inj (hlt n) (hlt m) (by simpa using hdata)
    have := List.reverse_injective hrev
    exact Nat.digits_inj_iff.mp this

/-- Counterexample C3: the temporary-name suffix is the Date.now() reading,
so two rebuild invocations targeting the same table in the same millisecond
choose the same temporary relation name — they are not pairwise distinct. -/
theorem C3_counterexample :
    ¬ (SchemaService.tempName "orders" 42 ≠ SchemaService.tempName "orders" 42) ∧
      SchemaService.tempName "orders" 42 = "orders_temp_42" :=
  ⟨fun hne => hne rfl, by decide⟩

/-- Claim C3 (amended): the rebuild names its temporary relation
`tableName_temp_<Date.now()>`; two rebuild invocations targeting the same
table choose distinct names whenever their Date.now() readings differ — the
suffix is only millisecond-resolution, not collision-resistant within one
millisecond. -/
theorem C3_tempName_distinct (T : String) (n1 n2 : Nat) (h : n1 ≠ n2) :
    SchemaService.tempName T n1 ≠ SchemaService.tempName T n2 := by
  intro hc
  apply h
  unfold SchemaService.tempName at hc
  have hdata := congrArg String.data hc
  simp only [String.data_append, List.append_assoc] at hdata
  have hdec : (natToDecimal n1).data = (natToDecimal n2).data :=
    List.append_cancel_left (List.append_cancel_left hdata)
  exact natToDecimal_inj (string_data_inj hdec)

/-- Witness for C3 (amended): distinct millisecond readings give distinct
temporary names. -/
theorem C3_tempName_distinct_witness :
    SchemaService.tempName "orders" 42 ≠ SchemaService.tempName "orders" 43 :=
  C3_tempName_distinct "orders" 42 43 (by decide)

/-! ## Success characterization of createTable -/

theorem ebind_ok_elim {α β : Type} {m : Except String α} {f : α → Except String β}
    {b : β} (h : (Bind.bind m f : Except String β) = .ok b) :
    ∃ a, m = .ok a ∧ f a = .ok b := by
  cases m with
  | error e => rw [ebind_error] at h; cases h
  | ok a => exact ⟨a, rfl, by rwa [ebind_ok] at h⟩

theorem runExec_ok {fa : Nat → Bool} {k : Nat} {op : DBState → Except String DBState}
    {db : DBState} {r : DBState × Nat} (h : runExec fa k op db = .ok r) :
    fa k = false ∧ op db = .ok r.1 ∧ r.2 = k + 1 := by
  unfold runExec at h
  split_ifs at h with hf
  cases hop : op db <;> rw [hop] at h
  · cases h
  · injection h with h2
    rw [← h2]
    exact ⟨by simpa using hf, rfl, rfl⟩

theorem insertTableRow_ok {db : DBState} {r : TableRow} {db2 : DBState}
    (h : db.insertTableRow r = .ok db2) :
    db2 = { db with tables := db.tables ++ [r] } ∧
      db.tables.any (fun t => t.id == r.id || t.name == r.name) = false := by
  unfold DBState.insertTableRow at h
  split_ifs at h with hc
  injection h with h2
  exact ⟨h2.symm, by simpa using hc⟩

theorem insertFieldRow_ok {db : DBState} {r : FieldRow} {db2 : DBState}
    (h : db.insertFieldRow r = .ok db2) :
    db2 = { db with fields := db.fields ++ [r] } ∧
      db.fields.any
        (fun f => f.id == r.id || (f.tableId == r.tableId && f.name == r.name)) = false := by
  unfold DBState.insertFieldRow at h
  split_ifs at h with hc1 hc2
  injection h with h2
  exact ⟨h2.symm, by simpa using hc1⟩

theorem createPhys_ok {db : DBState} {name : String} {cols : List PhysCol} {db2 : DBState}
    (h : db.createPhys name cols = .ok db2) :
    db2 = { db with phys := db.phys ++ [(name, ⟨cols⟩)] } ∧
      db.tableExistsB name = false ∧
      DBState.hasDup (cols.map PhysCol.name) = false := by
  unfold DBState.createPhys at h
  split_ifs at h with hc1 hc2
  injection h with h2
  exact ⟨h2.symm, by simpa using hc1, by simpa using hc2⟩

/-- The `ParsedField` produced by a successful `fieldDefinitionSchema.parse`. -/
def parsedOf (f : FieldInput) : ParsedField :=
  { name := f.name, displayName := f.displayName, ftype := f.ftype,
    required := f.required.getD false, unique := f.unique.getD false,
    defaultValue := f.defaultValue, description := f.description }

theorem parseField_ok {f : FieldInput} {p : ParsedField} (h : parseField f = .ok p) :
    p = parsedOf f ∧ isValidIdent f.name = true ∧ f.displayName ≠ "" := by
  unfold parseField at h
  split_ifs at h with h1 h2
  injection h with h3
  exact ⟨h3.symm, by simpa using h1, h2⟩

theorem parseFieldList_ok :
    ∀ {fs : List FieldInput} {ps : List ParsedField}, parseFieldList fs = .ok ps →
      ps = fs.map parsedOf := by
  intro fs
  induction fs with
  | nil =>
    intro ps h
    unfold parseFieldList at h
    injection h with h2
    simp [← h2]
  | cons f ft ih =>
    intro ps h
    unfold parseFieldList at h
    rcases ebind_ok_elim h with ⟨p, hp, h2⟩
    rcases ebind_ok_elim h2 with ⟨pt, hpt, h3⟩
    injection h3 with h4
    rw [← h4, List.map_cons, (parseField_ok hp).1, ih hpt]

theorem parseTable_ok {t : TableInput} {v : ParsedTable} (h : parseTable t = .ok v) :
    v = { name := t.name, displayName := t.displayName, description := t.description,
          fields := t.fields.map parsedOf } ∧
      isValidIdent t.name = true := by
  unfold parseTable at h
  split_ifs at h with h1 h2 h3
  rcases ebind_ok_elim h with ⟨ps, hps, h4⟩
  injection h4 with h5
  rw [← h5, parseFieldList_ok hps]
  exact ⟨rfl, by simpa using h1⟩

/-- The `_spinekit_fields` row inserted for field `f` at sort position `i`. -/
def mkFieldRow (tableId now : String) (fieldIds : Nat → String) (i : Nat)
    (f : ParsedField) : FieldRow :=
  { id := fieldIds i, tableId := tableId, name := f.name, displayName := f.displayName,
    ftype := f.ftype, required := f.required, unique := f.unique,
    defaultValue := storedDefault f.defaultValue,
    description := strOrNull f.description,
    sortOrder := i, createdAt := now, updatedAt := now }

def mkRows (tableId now : String) (fieldIds : Nat → String) :
    List ParsedField → Nat → List FieldRow
  | [], _ => []
  | f :: fs, i => mkFieldRow tableId now fieldIds i f :: mkRows tableId now fieldIds fs (i + 1)

/-- The in-memory `FieldDefinition` pushed for field `f` at position `i`. -/
def mkFieldDef (fieldIds : Nat → String) (i : Nat) (f : ParsedField) : FieldDefinition :=
  { id := fieldIds i, name := f.name, displayName := f.displayName, ftype := f.ftype,
    required := f.required, unique := f.unique, defaultValue := f.defaultValue,
    description := f.description }

def mkDefs (fieldIds : Nat → String) : List ParsedField → Nat → List FieldDefinition
  | [], _ => []
  | f :: fs, i => mkFieldDef fieldIds i f :: mkDefs fieldIds fs (i + 1)

theorem insertFieldsLoop_ok {tableId now : String} {fieldIds : Nat → String}
    {fa : Nat → Bool} :
    ∀ (fs : List ParsedField) (i k : Nat) (db : DBState)
      (r : DBState × Nat × List FieldDefinition),
      SchemaService.insertFieldsLoop tableId now fieldIds fa fs i k db = .ok r →
      r.1.tables = db.tables ∧ r.1.phys = db.phys ∧
        r.1.fields = db.fields ++ mkRows tableId now fieldIds fs i ∧
        r.2.2 = mkDefs fieldIds fs i := by
  intro fs
  induction fs with
  | nil =>
    intro i k db r h
    unfold SchemaService.insertFieldsLoop at h
    injection h with h2
    rw [← h2]
    simp [mkRows, mkDefs]
  | cons f ft ih =>
    intro i k db r h
    unfold SchemaService.insertFieldsLoop at h
    rcases ebind_ok_elim h with ⟨r1, hr1, h2⟩
    rcases ebind_ok_elim h2 with ⟨r2, hr2, h3⟩
    obtain ⟨_, hop, _⟩ := runExec_ok hr1
    obtain ⟨hrow, _⟩ := insertFieldRow_ok hop
    obtain ⟨ht, hp, hf, hd⟩ := ih (i + 1) r1.2 r1.1 r2 hr2
    injection h3 with h4
    rw [← h4]
    refine ⟨by rw [ht, hrow], by rw [hp, hrow], ?_, ?_⟩
    · rw [hf, hrow]
      simp [mkRows, mkFieldRow]
    · rw [mkDefs]
      simp only [List.cons.injEq]
      exact ⟨rfl, hd⟩

theorem createTable_ok {st : AdapterState} {input : TableInput} {tid : String}
    {fids : Nat → String} {now : String} {fa : Nat → Bool} {ts : TableSchema}
    (h : (SchemaService.createTable st input tid fids now fa).2 = .ok ts) :
    ∃ v, parseTable input = .ok v ∧
      st.db.tables.any (fun t => t.id == tid || t.name == v.name) = false ∧
      DBState.hasDup ((physColsFor (mkDefs fids v.fields 0)).map PhysCol.name) = false ∧
      ts.fields = mkDefs fids v.fields 0 ∧
      (SchemaService.createTable st input tid fids now fa).1.db =
        { tables := st.db.tables ++
            [{ id := tid, name := v.name, displayName := v.displayName,
               description := strOrNull v.description, createdAt := now,
               updatedAt := now }],
          fields := st.db.fields ++ mkRows tid now fids v.fields 0,
          phys := st.db.phys ++
            [(v.name, ⟨physColsFor (mkDefs fids v.fields 0)⟩)] } := by
  unfold SchemaService.createTable at h ⊢
  cases hp : parseTable input with
  | error e => rw [hp] at h; simp at h
  | ok v =>
    rw [hp] at h
    refine ⟨v, rfl, ?_⟩
    by_cases hex : st.db.tableExistsB v.name = true
    · simp [hex] at h
    · simp only [hex, Bool.false_eq_true, if_false] at h ⊢
      obtain ⟨hc, hn, db2, hbody, hres⟩ := runMutation_ok h
      rcases ebind_ok_elim hbody with ⟨rb, hrb, h2⟩
      injection h2 with h3
      rw [Prod.mk.injEq] at h3
      obtain ⟨hdb2, hts0⟩ := h3
      -- rb : DBState × List FieldDefinition from createTableBody
      unfold SchemaService.createTableBody at hrb
      rcases ebind_ok_elim hrb with ⟨r1, hr1, h4⟩
      rcases ebind_ok_elim h4 with ⟨r2, hr2, h5⟩
      rcases ebind_ok_elim h5 with ⟨r3, hr3, h6⟩
      obtain ⟨_, hop1, _⟩ := runExec_ok hr1
      obtain ⟨hrow1, hguard1⟩ := insertTableRow_ok hop1
      obtain ⟨ht2, hp2, hf2, hd2⟩ := insertFieldsLoop_ok v.fields 0 r1.2 r1.1 r2 hr2
      obtain ⟨_, hop3, _⟩ := runExec_ok hr3
      unfold SchemaService.createPhysicalTable at hop3
      obtain ⟨hphys3, hex3, hdup3⟩ := createPhys_ok hop3
      injection h6 with h7
      refine ⟨hguard1, ?_, ?_, ?_⟩
      · rw [← hd2]
        exact hdup3
      · rw [← hts0]
        show rb.2 = _
        rw [← h7]
        exact hd2
      · rw [hres]
        show db2 = _
        rw [← hdb2, ← h7]
        show r3.1 = _
        rw [hphys3, hd2]
        have hr2c : r2.1 =
            { r1.1 with fields := r1.1.fields ++ mkRows tid now fids v.fields 0 } :=
          DBState.ext ht2 hf2 hp2
        rw [hr2c, hrow1]

/-! ## Success characterization of addColumn -/

theorem addPhysCol_ok {db : DBState} {name : String} {col : PhysCol} {db2 : DBState}
    (h : db.addPhysCol name col = .ok db2) :
    ∃ pt, db.physTable name = some pt ∧
      pt.cols.any (fun c => c.name == col.name) = false ∧
      db2 = { db with
              phys := db.phys.map
                (fun p => if p.1 == name then (p.1, ⟨pt.cols ++ [col]⟩) else p) } := by
  unfold DBState.addPhysCol at h
  split at h
  · cases h
  · rename_i pt hpt
    split_ifs at h with hc
    injection h with h2
    exact ⟨pt, hpt, by simpa using hc, h2.symm⟩

/-- The `_spinekit_fields` row inserted by `addColumn`. -/
def addColRow (tblId : String) (sortOrder : Nat) (fd : FieldInput) (fid now : String) :
    FieldRow :=
  { id := fid, tableId := tblId, name := fd.name, displayName := fd.displayName,
    ftype := fd.ftype, required := fd.required.getD false, unique := fd.unique.getD false,
    defaultValue := storedDefault fd.defaultValue, description := strOrNull fd.description,
    sortOrder := sortOrder, createdAt := now, updatedAt := now }

/-- The physical column added by `addColumn`: unlike the rebuild, it carries a
DEFAULT clause whenever `defaultValue` is present (not merely truthy). -/
def addColPhys (fd : FieldInput) : PhysCol :=
  { name := fd.name, sqlType := mapFieldTypeToSQL fd.ftype, primaryKey := false,
    notNull := fd.required.getD false, unique := fd.unique.getD false,
    dflt := fd.defaultValue.map (fun v => formatDefaultValue v fd.ftype) }

theorem addColumn_ok {st : AdapterState} {T : String} {fd : FieldInput}
    {fid now : String} {fa : Nat → Bool}
    (h : (SchemaService.addColumn st T fd fid now fa).2 = .ok ()) :
    ∃ tbl, st.db.getTable T = some tbl ∧
      (tbl.fields.find? (fun f => f.name == fd.name)).isSome = false ∧
      ∃ pt, st.db.physTable T = some pt ∧
        pt.cols.any (fun c => c.name == fd.name) = false ∧
        (SchemaService.addColumn st T fd fid now fa).1.db =
          { st.db with
            fields := st.db.fields ++ [addColRow tbl.id tbl.fields.length fd fid now],
            phys := st.db.phys.map
              (fun p => if p.1 == T then (p.1, ⟨pt.cols ++ [addColPhys fd]⟩) else p) } := by
  unfold SchemaService.addColumn at h ⊢
  cases hg : st.db.getTable T with
  | none => rw [hg] at h; simp at h
  | some tbl =>
    rw [hg] at h
    refine ⟨tbl, rfl, ?_⟩
    cases hpf : parseField fd with
    | error e => rw [hpf] at h; simp at h
    | ok v =>
      rw [hpf] at h
      obtain ⟨hv, _, _⟩ := parseField_ok hpf
      subst hv
      by_cases hdup : (tbl.fields.find? (fun f => f.name == (parsedOf fd).name)).isSome = true
      · simp [hdup] at h
      · refine ⟨by simpa [parsedOf] using hdup, ?_⟩
        by_cases hrule : ((parsedOf fd).required && !jsTruthy (parsedOf fd).defaultValue) = true
        · simp [hdup, hrule] at h
        · simp only [hdup, hrule, Bool.false_eq_true, if_false] at h ⊢
          obtain ⟨hc, hn, db2, hbody, hres⟩ := runMutation_ok h
          rcases ebind_ok_elim hbody with ⟨r1, hr1, h2⟩
          rcases ebind_ok_elim h2 with ⟨r2, hr2, h3⟩
          obtain ⟨_, hop1, _⟩ := runExec_ok hr1
          obtain ⟨hrow1, _⟩ := insertFieldRow_ok hop1
          obtain ⟨_, hop2, _⟩ := runExec_ok hr2
          obtain ⟨pt, hpt, hnocol, hphys2⟩ := addPhysCol_ok hop2
          have hptst : st.db.physTable T = some pt := by
            rw [hrow1] at hpt
            exact hpt
          refine ⟨pt, hptst, by simpa [parsedOf] using hnocol, ?_⟩
          injection h3 with h4
          rw [Prod.mk.injEq] at h4
          obtain ⟨hdb2, _⟩ := h4
          rw [hres]
          show db2 = _
          rw [← hdb2, hphys2, hrow1]
          simp only [addColRow, addColPhys, parsedOf]

/-! ## Claim C4: reserved system column names -/

theorem contains_eq_false_iff {l : List String} {a : String} :
    l.contains a = false ↔ a ∉ l := by
  rw [List.contains_eq_any_beq, Bool.eq_false_iff]
  simp [List.any_eq_true]

theorem hasDup_false_nodup : ∀ {l : List String}, DBState.hasDup l = false → l.Nodup := by
  intro l
  induction l with
  | nil => intro _; exact List.nodup_nil
  | cons x xs ih =>
    intro h
    unfold DBState.hasDup at h
    rw [Bool.or_eq_false_iff] at h
    exact List.nodup_cons.mpr ⟨contains_eq_false_iff.mp h.1, ih h.2⟩

theorem physColsFor_names (fds : List FieldDefinition) :
    (physColsFor fds).map PhysCol.name =
      "id" :: fds.map FieldDefinition.name ++ ["created_at", "updated_at"] := by
  simp [physColsFor, idCol, auditCol, fieldToPhysCol, List.map_map, Function.comp]

theorem mkDefs_names {fieldIds : Nat → String} :
    ∀ (fs : List ParsedField) (i : Nat),
      (mkDefs fieldIds fs i).map FieldDefinition.name = fs.map ParsedField.name := by
  intro fs
  induction fs with
  | nil => intro i; rfl
  | cons f ft ih =>
    intro i
    rw [mkDefs, List.map_cons, List.map_cons, ih]
    rfl

theorem mkRows_names {tableId now : String} {fieldIds : Nat → String} :
    ∀ (fs : List ParsedField) (i : Nat),
      (mkRows tableId now fieldIds fs i).map FieldRow.name = fs.map ParsedField.name := by
  intro fs
  induction fs with
  | nil => intro i; rfl
  | cons f ft ih =>
    intro i
    rw [mkRows, List.map_cons, List.map_cons, ih]
    rfl

theorem nodup_cols_no_reserved {ns : List String}
    (h : ("id" :: ns ++ ["created_at", "updated_at"]).Nodup) :
    ∀ n ∈ ns, n ∉ SchemaService.systemColumns := by
  intro n hn hmem
  have hmem2 : n = "id" ∨ n = "created_at" ∨ n = "updated_at" := by
    simpa [SchemaService.systemColumns] using hmem
  rcases List.nodup_cons.mp h with ⟨hnotin, h2⟩
  rcases List.nodup_append.mp h2 with ⟨_, _, hdisj⟩
  rcases hmem2 with h1 | h1 | h1 <;> subst h1
  · exact hnotin (List.mem_append_left _ hn)
  · exact hdisj hn (by simp)
  · exact hdisj hn (by simp)

/-- No catalog field row carries a reserved system column name. -/
def noReservedB (db : DBState) : Bool :=
  db.fields.all (fun r => !(SchemaService.systemColumns.contains r.name))

theorem createTable_reserved_rejected {st : AdapterState} {input : TableInput}
    {tid : String} {fids : Nat → String} {now : String} {fa : Nat → Bool}
    {f : FieldInput} (hf : f ∈ input.fields)
    (hres : f.name ∈ SchemaService.systemColumns) :
    ∃ e, (SchemaService.createTable st input tid fids now fa).2 = .error e := by
  cases hout : (SchemaService.createTable st input tid fids now fa).2 with
  | error e => exact ⟨e, rfl⟩
  | ok ts =>
    exfalso
    obtain ⟨v, hp, _, hdup, _, _⟩ := createTable_ok hout
    obtain ⟨hv, _⟩ := parseTable_ok hp
    have hnodup := hasDup_false_nodup hdup
    rw [physColsFor_names, mkDefs_names, hv] at hnodup
    have hmemname : f.name ∈ ((input.fields.map parsedOf).map ParsedField.name) := by
      rw [List.map_map]
      exact List.mem_map_of_mem _ hf
    exact nodup_cols_no_reserved hnodup f.name hmemname hres

theorem addColumn_reserved_rejected {st : AdapterState} {T : String} {fd : FieldInput}
    {fid now : String} {fa : Nat → Bool} {pt : PhysTable}
    (hpt : st.db.physTable T = some pt)
    (hsys : ∀ c ∈ SchemaService.systemColumns,
      pt.cols.any (fun col => col.name == c) = true)
    (hres : fd.name ∈ SchemaService.systemColumns) :
    ∃ e, (SchemaService.addColumn st T fd fid now fa).2 = .error e := by
  cases hout : (SchemaService.addColumn st T fd fid now fa).2 with
  | error e => exact ⟨e, rfl⟩
  | ok u =>
    exfalso
    cases u
    obtain ⟨tbl, _, _, pt2, hpt2, hnocol, _⟩ := addColumn_ok hout
    rw [hpt] at hpt2
    injection hpt2 with hpteq
    rw [← hpteq] at hnocol
    rw [hsys fd.name hres] at hnocol
    cases hnocol

/-- Claim C4: no explicit reserved-name validation exists, but a field named
id, created_at or updated_at always collides with the corresponding system
column of the physical table, so the engine rejects the DDL and the operation
fails (rolling back its catalog write): every createTable or addColumn call
whose field carries a reserved name returns an error, and both operations
preserve the invariant that no catalog field row carries a reserved name. -/
theorem C4_reserved_names :
    (∀ st input tid fids now fa (f : FieldInput), f ∈ input.fields →
      f.name ∈ SchemaService.systemColumns →
      ∃ e, (SchemaService.createTable st input tid fids now fa).2 = .error e) ∧
    (∀ st T fd fid now fa pt, st.db.physTable T = some pt →
      (∀ c ∈ SchemaService.systemColumns,
        pt.cols.any (fun col => col.name == c) = true) →
      fd.name ∈ SchemaService.systemColumns →
      ∃ e, (SchemaService.addColumn st T fd fid now fa).2 = .error e) ∧
    (∀ st input tid fids now fa, noReservedB st.db = true →
      noReservedB (SchemaService.createTable st input tid fids now fa).1.db = true) ∧
    (∀ st T fd fid now fa pt, st.db.physTable T = some pt →
      (∀ c ∈ SchemaService.systemColumns,
        pt.cols.any (fun col => col.name == c) = true) →
      noReservedB st.db = true →
      noReservedB (SchemaService.addColumn st T fd fid now fa).1.db = true) := by
  refine ⟨fun _ _ _ _ _ _ _ hf hres => createTable_reserved_rejected hf hres,
          fun _ _ _ _ _ _ _ hpt hsys hres => addColumn_reserved_rejected hpt hsys hres,
          ?_, ?_⟩
  · intro st input tid fids now fa hinv
    cases hout : (SchemaService.createTable st input tid fids now fa).2 with
    | error e =>
      rw [(createTable_error_frame hout).1]
      exact hinv
    | ok ts =>
      obtain ⟨v, hp, _, hdup, _, hdb⟩ := createTable_ok hout
      obtain ⟨hv, _⟩ := parseTable_ok hp
      rw [hdb]
      have hnodup := hasDup_false_nodup hdup
      rw [physColsFor_names, mkDefs_names] at hnodup
      unfold noReservedB at hinv ⊢
      rw [List.all_eq_true] at hinv ⊢
      intro r hr
      rcases List.mem_append.mp hr with hmem | hmem
      · exact hinv r hmem
      · have hname : r.name ∈ (mkRows tid now fids v.fields 0).map FieldRow.name :=
          List.mem_map_of_mem _ hmem
        rw [mkRows_names] at hname
        have hnot := nodup_cols_no_reserved hnodup r.name hname
        simp only [Bool.not_eq_eq_eq_not, Bool.not_false]
        exact contains_eq_false_iff.mpr hnot
  · intro st T fd fid now fa pt hpt hsys hinv
    cases hout : (SchemaService.addColumn st T fd fid now fa).2 with
    | error e =>
      rw [(addColumn_error_frame hout).1]
      exact hinv
    | ok u =>
      cases u
      have hfd : fd.name ∉ SchemaService.systemColumns := by
        intro hres
        obtain ⟨e, he⟩ := addColumn_reserved_rejected hpt hsys hres
        rw [hout] at he
        cases he
      obtain ⟨tbl, _, _, pt2, _, _, hdb⟩ := addColumn_ok hout
      rw [hdb]
      unfold noReservedB at hinv ⊢
      rw [List.all_eq_true] at hinv ⊢
      intro r hr
      rcases List.mem_append.mp hr with hmem | hmem
      · exact hinv r hmem
      · have : r = addColRow tbl.id tbl.fields.length fd fid now := by simpa using hmem
        rw [this]
        simp only [addColRow, Bool.not_eq_eq_eq_not, Bool.not_false]
        exact contains_eq_false_iff.mpr hfd

def exFieldId : FieldInput :=
  { name := "id", displayName := "Ident", ftype := .string,
    required := none, unique := none, defaultValue := none, description := none }

def exOrdersBad : TableInput :=
  { name := "orders", displayName := "Orders", description := none,
    fields := [exTotal, exFieldId] }

/-- Witness for C4: creating a table with a user field named `id` fails, as
does adding a column named `id` to the scenario table; both preserve the
no-reserved-name catalog invariant. -/
theorem C4_reserved_names_witness :
    (∃ e, (SchemaService.createTable exSt0 exOrdersBad "T9" exGen "t0" noFaults).2 =
      .error e) ∧
    (∃ e, (SchemaService.addColumn exSt1 "orders" exFieldId "FB" "t6" noFaults).2 =
      .error e) ∧
    noReservedB (SchemaService.createTable exSt0 exOrdersBad "T9" exGen "t0"
      noFaults).1.db = true ∧
    noReservedB (SchemaService.addColumn exSt1 "orders" exFieldId "FB" "t6"
      noFaults).1.db = true :=
  ⟨C4_reserved_names.1 exSt0 exOrdersBad "T9" exGen "t0" noFaults exFieldId
      (by decide) (by decide),
   C4_reserved_names.2.1 exSt1 "orders" exFieldId "FB" "t6" noFaults
      ((exSt1.db.physTable "orders").getD ⟨[]⟩) (by rfl) (by decide) (by decide),
   C4_reserved_names.2.2.1 exSt0 exOrdersBad "T9" exGen "t0" noFaults (by rfl),
   C4_reserved_names.2.2.2 exSt1 "orders" exFieldId "FB" "t6" noFaults
      ((exSt1.db.physTable "orders").getD ⟨[]⟩) (by rfl) (by decide) (by rfl)⟩

/-! ## Reading back a freshly created table -/

theorem find?_append_right {α : Type} {l1 : List α} {p : α → Bool} {r : α}
    (hl : ∀ t ∈ l1, p t = false) (hr : p r = true) :
    (l1 ++ [r]).find? p = some r := by
  rw [List.find?_append]
  have h1 : l1.find? p = none := List.find?_eq_none.mpr (fun x hx => by simp [hl x hx])
  rw [h1]
  simp [List.find?_cons, hr]

theorem filter_append_split {l1 l2 : List FieldRow} {p : FieldRow → Bool}
    (h1 : ∀ r ∈ l1, p r = false) (h2 : ∀ r ∈ l2, p r = true) :
    (l1 ++ l2).filter p = l2 := by
  rw [List.filter_append]
  have e1 : l1.filter p = [] := by
    rw [List.filter_eq_nil_iff]
    intro x hx
    simp [h1 x hx]
  rw [e1, List.filter_eq_self.mpr h2]
  rfl

theorem any_eq_false_forall {α : Type} {l : List α} {p : α → Bool}
    (h : l.any p = false) : ∀ x ∈ l, p x = false := by
  intro x hx
  by_contra hpx
  rw [Bool.not_eq_false] at hpx
  have h2 : l.any p = true := List.any_eq_true.mpr ⟨x, hx, hpx⟩
  rw [h] at h2
  cases h2

theorem strOrNull_idem (s : Option String) : strOrNull (strOrNull s) = strOrNull s := by
  cases s with
  | none => rfl
  | some s2 =>
    unfold strOrNull
    by_cases h : s2 = ""
    · simp [h]
    · simp [h]

/-- The `FieldDefinition` read back by `getTableFields` for a field created at
position `i`: the defaultValue stored (and hence reported) is `storedDefault`
of the supplied value. -/
def mkReadDef (fieldIds : Nat → String) (i : Nat) (f : ParsedField) : FieldDefinition :=
  { id := fieldIds i, name := f.name, displayName := f.displayName, ftype := f.ftype,
    required := f.required, unique := f.unique,
    defaultValue := storedDefault f.defaultValue, description := strOrNull f.description }

def mkReadDefs (fieldIds : Nat → String) : List ParsedField → Nat → List FieldDefinition
  | [], _ => []
  | f :: fs, i => mkReadDef fieldIds i f :: mkReadDefs fieldIds fs (i + 1)

theorem rowToFieldDefinition_mkFieldRow {tableId now : String} {fieldIds : Nat → String}
    {i : Nat} {f : ParsedField} :
    rowToFieldDefinition (mkFieldRow tableId now fieldIds i f) = mkReadDef fieldIds i f := by
  unfold rowToFieldDefinition mkFieldRow mkReadDef
  simp [strOrNull_idem]

theorem mkRows_map_read {tableId now : String} {fieldIds : Nat → String} :
    ∀ (fs : List ParsedField) (i : Nat),
      (mkRows tableId now fieldIds fs i).map rowToFieldDefinition =
        mkReadDefs fieldIds fs i := by
  intro fs
  induction fs with
  | nil => intro i; rfl
  | cons f ft ih =>
    intro i
    rw [mkRows, List.map_cons, ih, rowToFieldDefinition_mkFieldRow, mkReadDefs]

theorem mkRows_tableId {tableId now : String} {fieldIds : Nat → String} :
    ∀ (fs : List ParsedField) (i : Nat) (r : FieldRow),
      r ∈ mkRows tableId now fieldIds fs i → r.tableId = tableId := by
  intro fs
  induction fs with
  | nil => intro i r hr; simp [mkRows] at hr
  | cons f ft ih =>
    intro i r hr
    rw [mkRows] at hr
    rcases List.mem_cons.mp hr with h1 | h1
    · rw [h1]; rfl
    · exact ih (i + 1) r h1

theorem mkRows_sortOrder_ge {tableId now : String} {fieldIds : Nat → String} :
    ∀ (fs : List ParsedField) (i : Nat) (r : FieldRow),
      r ∈ mkRows tableId now fieldIds fs i → i ≤ r.sortOrder := by
  intro fs
  induction fs with
  | nil => intro i r hr; simp [mkRows] at hr
  | cons f ft ih =>
    intro i r hr
    rw [mkRows] at hr
    rcases List.mem_cons.mp hr with h1 | h1
    · rw [h1]; exact le_rfl
    · exact Nat.le_of_succ_le (ih (i + 1) r h1)

theorem mkRows_sorted {tableId now : String} {fieldIds : Nat → String} :
    ∀ (fs : List ParsedField) (i : Nat),
      List.Pairwise bySortOrder (mkRows tableId now fieldIds fs i) := by
  intro fs
  induction fs with
  | nil => intro i; exact List.Pairwise.nil
  | cons f ft ih =>
    intro i
    rw [mkRows]
    refine List.pairwise_cons.mpr ⟨?_, ih (i + 1)⟩
    intro r hr
    exact Nat.le_of_succ_le (mkRows_sortOrder_ge ft (i + 1) r hr)

/-- After a successful `createTable`, `getTable` on the new name returns the
new catalog row with its fields read back in insertion order; each field's
reported defaultValue is `storedDefault` of the supplied one. -/
theorem createTable_getTable {st : AdapterState} {input : TableInput} {tid : String}
    {fids : Nat → String} {now : String} {fa : Nat → Bool} {ts : TableSchema}
    (hok : (SchemaService.createTable st input tid fids now fa).2 = .ok ts)
    (hfk : ∀ r ∈ st.db.fields, ∃ t ∈ st.db.tables, t.id = r.tableId) :
    ∃ v, parseTable input = .ok v ∧
      (SchemaService.createTable st input tid fids now fa).1.db.getTable input.name =
        some { id := tid, name := v.name, displayName := v.displayName,
               description := strOrNull v.description,
               fields := mkReadDefs fids v.fields 0,
               createdAt := now, updatedAt := now } := by
  obtain ⟨v, hp, hguard, _, _, hdb⟩ := createTable_ok hok
  obtain ⟨hv, _⟩ := parseTable_ok hp
  have hvname : v.name = input.name := by rw [hv]
  refine ⟨v, hp, ?_⟩
  rw [hdb]
  unfold DBState.getTable
  have hfound : ((st.db.tables ++
      [{ id := tid, name := v.name, displayName := v.displayName,
         description := strOrNull v.description, createdAt := now,
         updatedAt := now : TableRow }]).find? (fun t => t.name == input.name)) =
      some { id := tid, name := v.name, displayName := v.displayName,
             description := strOrNull v.description, createdAt := now,
             updatedAt := now : TableRow } := by
    apply find?_append_right
    · intro t ht
      have := any_eq_false_forall hguard t ht
      rw [Bool.or_eq_false_iff] at this
      rw [← hvname]
      exact this.2
    · simp [hvname]
  rw [hfound]
  simp only [Option.some.injEq, TableSchema.mk.injEq, strOrNull_idem, true_and,
    and_true]
  unfold DBState.getTableFields DBState.fieldRowsOf
  have hfilter : ((st.db.fields ++ mkRows tid now fids v.fields 0).filter
      (fun r => r.tableId == tid)) = mkRows tid now fids v.fields 0 := by
    apply filter_append_split
    · intro r hr
      obtain ⟨t, htmem, htid⟩ := hfk r hr
      have hany := any_eq_false_forall hguard t htmem
      rw [Bool.or_eq_false_iff] at hany
      have h1 := hany.1
      rw [beq_eq_false_iff_ne] at h1
      rw [beq_eq_false_iff_ne, ← htid]
      exact h1
    · intro r hr
      rw [beq_iff_eq]
      exact mkRows_tableId v.fields 0 r hr
  show (((st.db.fields ++ mkRows tid now fids v.fields 0).filter
          (fun r => r.tableId == tid)).insertionSort bySortOrder).map
        rowToFieldDefinition =
      mkReadDefs fids v.fields 0
  rw [hfilter, List.Sorted.insertionSort_eq (mkRows_sorted v.fields 0)]
  exact mkRows_map_read v.fields 0

/-! ## Claim C6: createTable then getTable round-trip -/

/-- The content of a field visible through the API: name, display name, type,
required, unique, default value (ids and timestamps excluded). -/
structure FieldContent where
  name : String
  displayName : String
  ftype : FieldType
  required : Bool
  unique : Bool
  defaultValue : Option JSValue
deriving DecidableEq, Repr

def fieldContent (f : FieldDefinition) : FieldContent :=
  { name := f.name, displayName := f.displayName, ftype := f.ftype,
    required := f.required, unique := f.unique, defaultValue := f.defaultValue }

def inputFieldContent (f : FieldInput) : FieldContent :=
  { name := f.name, displayName := f.displayName, ftype := f.ftype,
    required := f.required.getD false, unique := f.unique.getD false,
    defaultValue := f.defaultValue }

theorem mkReadDefs_content {fids : Nat → String} :
    ∀ (fs : List ParsedField) (i : Nat),
      (mkReadDefs fids fs i).map fieldContent =
        fs.map (fun f => { name := f.name, displayName := f.displayName,
                           ftype := f.ftype, required := f.required,
                           unique := f.unique,
                           defaultValue := storedDefault f.defaultValue :
                             FieldContent }) := by
  intro fs
  induction fs with
  | nil => intro i; rfl
  | cons f ft ih =>
    intro i
    rw [mkReadDefs, List.map_cons, List.map_cons, ih]
    rfl

/-- Counterexample C6: a valid createTable input whose field carries the
falsy default value `false`; the immediately following getTable reports that
field's default as absent, so content does not match the input exactly. -/
def exOrdersFalsy : TableInput :=
  { name := "orders", displayName := "Orders", description := none,
    fields := [exTotal, exFlagFalse] }

/-- What getTable actually reports after creating `exOrdersFalsy`: the flag
field's default value has been dropped. -/
def exTsFalsy : TableSchema :=
  { id := "T1", name := "orders", displayName := "Orders", description := none,
    fields := [{ id := "F0", name := "total", displayName := "Total",
                 ftype := .number, required := true, unique := false,
                 defaultValue := none, description := none },
               { id := "F1", name := "flag", displayName := "Flag",
                 ftype := .boolean, required := true, unique := false,
                 defaultValue := none, description := none }],
    createdAt := "t0", updatedAt := "t0" }

theorem C6_counterexample :
    (SchemaService.createTable exSt0 exOrdersFalsy "T1" exGen "t0"
        noFaults).1.db.getTable "orders" = some exTsFalsy ∧
      exTsFalsy.fields.map fieldContent ≠ exOrdersFalsy.fields.map inputFieldContent :=
  ⟨by rfl, by decide⟩

/-- Claim C6 (amended): for every valid createTable input in which each
field's default value is either absent or truthy, an immediately following
getTable returns a field list whose content (name, display name, type,
required, unique, default value) and order match the input exactly.  (A falsy
default — false, 0, or the empty string — is stored as NULL and read back as
absent, so such inputs are excluded.) -/
theorem C6_createTable_then_getTable {st : AdapterState} {input : TableInput}
    {tid : String} {fids : Nat → String} {now : String} {fa : Nat → Bool}
    {ts : TableSchema}
    (hok : (SchemaService.createTable st input tid fids now fa).2 = .ok ts)
    (hfk : ∀ r ∈ st.db.fields, ∃ t ∈ st.db.tables, t.id = r.tableId)
    (hdef : ∀ f ∈ input.fields,
      f.defaultValue = none ∨ jsTruthy f.defaultValue = true) :
    ∃ ts2, (SchemaService.createTable st input tid fids now fa).1.db.getTable
        input.name = some ts2 ∧
      ts2.fields.map fieldContent = input.fields.map inputFieldContent := by
  obtain ⟨v, hp, hget⟩ := createTable_getTable hok hfk
  obtain ⟨hv, _⟩ := parseTable_ok hp
  refine ⟨_, hget, ?_⟩
  show (mkReadDefs fids v.fields 0).map fieldContent = _
  rw [mkReadDefs_content, hv]
  show ((input.fields.map parsedOf).map _) = _
  rw [List.map_map]
  apply List.map_eq_map_iff.mpr
  intro f hf
  rcases hdef f hf with h1 | h1
  · simp [inputFieldContent, parsedOf, storedDefault, Function.comp, h1]
  · cases hd : f.defaultValue with
    | none => simp [inputFieldContent, parsedOf, storedDefault, Function.comp, hd]
    | some w =>
      rw [hd] at h1
      have hw : w.truthy = true := h1
      simp [inputFieldContent, parsedOf, storedDefault, Function.comp, hd, hw]

/-- The TableSchema returned by the scenario createTable call. -/
def exTs1 : TableSchema :=
  { id := "T1", name := "orders", displayName := "Orders", description := none,
    fields := [{ id := "F0", name := "total", displayName := "Total", ftype := .number,
                 required := true, unique := false, defaultValue := none,
                 description := none }],
    createdAt := "t0", updatedAt := "t0" }

/-- Witness for C6 (amended): the scenario input round-trips exactly. -/
theorem C6_createTable_then_getTable_witness :
    ∃ ts2, (SchemaService.createTable exSt0 exOrders "T1" exGen "t0"
        noFaults).1.db.getTable "orders" = some ts2 ∧
      ts2.fields.map fieldContent = exOrders.fields.map inputFieldContent :=
  @C6_createTable_then_getTable exSt0 exOrders "T1" exGen "t0" noFaults exTs1
    (by rfl) (by decide) (by decide)

/-! ## Claim C9: falsy default values are stored as NULL -/

theorem getTable_some_elim {db : DBState} {name : String} {ts : TableSchema}
    (h : db.getTable name = some ts) :
    ∃ t, db.tables.find? (fun t2 => t2.name == name) = some t ∧
      ts = { id := t.id, name := t.name, displayName := t.displayName,
             description := strOrNull t.description,
             fields := db.getTableFields t.id,
             createdAt := t.createdAt, updatedAt := t.updatedAt } := by
  unfold DBState.getTable at h
  split at h
  · cases h
  · rename_i t ht
    injection h with h2
    exact ⟨t, ht, h2.symm⟩

theorem mkReadDefs_defaults {fids : Nat → String} :
    ∀ (fs : List ParsedField) (i : Nat),
      (mkReadDefs fids fs i).map (fun f => f.defaultValue) =
        fs.map (fun f => storedDefault f.defaultValue) := by
  intro fs
  induction fs with
  | nil => intro i; rfl
  | cons f ft ih =>
    intro i
    rw [mkReadDefs, List.map_cons, List.map_cons, ih]
    rfl

/-- Contiguity of sort positions for the rows of one table: positions are
exactly 0..n-1 in storage order (the shape produced by createTable and kept
by addColumn). -/
def contiguousSort (db : DBState) (tid : String) : Prop :=
  (db.fieldRowsOf tid).map (fun r => r.sortOrder) =
    List.range (db.fieldRowsOf tid).length

instance (db : DBState) (tid : String) : Decidable (contiguousSort db tid) := by
  unfold contiguousSort
  infer_instance

/-- After a successful `addColumn`, `getTable` reads back the prior fields
followed by the new one; the new field's reported defaultValue is
`storedDefault` of the supplied one. -/
theorem addColumn_getTable {st : AdapterState} {T : String} {fd : FieldInput}
    {fid now : String} {fa : Nat → Bool} {tbl : TableSchema}
    (hok : (SchemaService.addColumn st T fd fid now fa).2 = .ok ())
    (hg : st.db.getTable T = some tbl)
    (hcont : contiguousSort st.db tbl.id) :
    (SchemaService.addColumn st T fd fid now fa).1.db.getTable T =
      some { tbl with
             fields := tbl.fields ++
               [rowToFieldDefinition (addColRow tbl.id tbl.fields.length fd fid now)] } := by
  obtain ⟨tbl2, hg2, _, pt, _, _, hdb⟩ := addColumn_ok hok
  rw [hg] at hg2
  injection hg2 with htbl
  subst htbl
  obtain ⟨t, ht, hts⟩ := getTable_some_elim hg
  set L := st.db.fieldRowsOf t.id with hL
  have htblid : tbl.id = t.id := by rw [hts]
  have hsorted : List.Pairwise (fun a b : FieldRow => a.sortOrder < b.sortOrder) L := by
    have hc : L.map (fun r => r.sortOrder) = List.range L.length := by
      rw [hL]
      have := hcont
      unfold contiguousSort at this
      rw [htblid] at this
      exact this
    have hpr : List.Pairwise (· < ·) (L.map (fun r => r.sortOrder)) := by
      rw [hc]
      exact List.pairwise_lt_range L.length
    exact (List.pairwise_map.mp hpr)
  have hlt : ∀ r ∈ L, r.sortOrder < L.length := by
    intro r hr
    have hmem : r.sortOrder ∈ L.map (fun r2 => r2.sortOrder) := List.mem_map_of_mem _ hr
    have hc : L.map (fun r2 => r2.sortOrder) = List.range L.length := by
      rw [hL]
      have := hcont
      unfold contiguousSort at this
      rw [htblid] at this
      exact this
    rw [hc] at hmem
    exact List.mem_range.mp hmem
  have hlen : tbl.fields.length = L.length := by
    rw [hts]
    show (DBState.getTableFields st.db t.id).length = L.length
    unfold DBState.getTableFields
    rw [List.length_map, ← hL, List.length_insertionSort]
  rw [hdb]
  unfold DBState.getTable
  have hfind : (st.db.tables.find? (fun t2 => t2.name == T)) = some t := ht
  rw [show ({ st.db with
        fields := st.db.fields ++ [addColRow tbl.id tbl.fields.length fd fid now],
        phys := st.db.phys.map (fun p =>
          if p.1 == T then (p.1, ⟨pt.cols ++ [addColPhys fd]⟩) else p) } :
      DBState).tables = st.db.tables from rfl]
  rw [hfind]
  simp only [Option.some.injEq]
  have hrowtid : (addColRow tbl.id tbl.fields.length fd fid now).tableId = t.id := htblid
  have hfields : DBState.getTableFields
      { st.db with
        fields := st.db.fields ++ [addColRow tbl.id tbl.fields.length fd fid now],
        phys := st.db.phys.map (fun p =>
          if p.1 == T then (p.1, ⟨pt.cols ++ [addColPhys fd]⟩) else p) } t.id =
      tbl.fields ++
        [rowToFieldDefinition (addColRow tbl.id tbl.fields.length fd fid now)] := by
    unfold DBState.getTableFields DBState.fieldRowsOf
    show (((st.db.fields ++ [addColRow tbl.id tbl.fields.length fd fid now]).filter
        (fun r => r.tableId == t.id)).insertionSort bySortOrder).map
        rowToFieldDefinition = _
    rw [List.filter_append]
    have hfr : ([addColRow tbl.id tbl.fields.length fd fid now].filter
        (fun r => r.tableId == t.id)) =
        [addColRow tbl.id tbl.fields.length fd fid now] := by
      rw [List.filter_eq_self]
      intro r hr
      rw [List.mem_singleton] at hr
      rw [hr, beq_iff_eq]
      exact hrowtid
    rw [hfr]
    have hsortedLe : List.Sorted bySortOrder L :=
      hsorted.imp (fun hab => Nat.le_of_lt hab)
    have hsorted2 : List.Pairwise bySortOrder
        (L ++ [addColRow tbl.id tbl.fields.length fd fid now]) := by
      rw [List.pairwise_append]
      refine ⟨hsortedLe, List.pairwise_singleton _ _, ?_⟩
      intro a ha b hb
      rw [List.mem_singleton] at hb
      rw [hb]
      show a.sortOrder ≤ tbl.fields.length
      rw [hlen]
      exact Nat.le_of_lt (hlt a ha)
    rw [show (st.db.fields.filter (fun r => r.tableId == t.id)) = L from rfl]
    rw [List.Sorted.insertionSort_eq hsorted2, List.map_append]
    congr 1
    · rw [hts]
      show _ = (((st.db.fieldRowsOf t.id).insertionSort bySortOrder).map
        rowToFieldDefinition)
      rw [← hL, List.Sorted.insertionSort_eq hsortedLe]
  rw [hfields, hts]

/-- Claim C9: a falsy default value (false, 0, or the empty string) is stored
as NULL by both createTable and addColumn, and a subsequent getTable reports
that field's defaultValue as absent rather than the supplied value: the
reported defaults are exactly `storedDefault` of the supplied ones, and
`storedDefault` of any falsy value is `none`. -/
theorem C9_falsy_default_dropped :
    (∀ v : JSValue, v.truthy = false → storedDefault (some v) = none) ∧
    (∀ st input tid fids now fa (ts : TableSchema),
      (SchemaService.createTable st input tid fids now fa).2 = .ok ts →
      (∀ r ∈ st.db.fields, ∃ t ∈ st.db.tables, t.id = r.tableId) →
      ∃ ts2, (SchemaService.createTable st input tid fids now fa).1.db.getTable
          input.name = some ts2 ∧
        ts2.fields.map (fun f => f.defaultValue) =
          input.fields.map (fun f => storedDefault f.defaultValue)) ∧
    (∀ st T fd fid now fa (tbl : TableSchema),
      (SchemaService.addColumn st T fd fid now fa).2 = .ok () →
      st.db.getTable T = some tbl →
      contiguousSort st.db tbl.id →
      ∃ ts2, (SchemaService.addColumn st T fd fid now fa).1.db.getTable T = some ts2 ∧
        ts2.fields.map (fun f => f.defaultValue) =
          tbl.fields.map (fun f => f.defaultValue) ++ [storedDefault fd.defaultValue]) := by
  refine ⟨?_, ?_, ?_⟩
  · intro v hv
    simp [storedDefault, hv]
  · intro st input tid fids now fa ts hok hfk
    obtain ⟨v, hp, hget⟩ := createTable_getTable hok hfk
    obtain ⟨hv, _⟩ := parseTable_ok hp
    refine ⟨_, hget, ?_⟩
    show (mkReadDefs fids v.fields 0).map (fun f => f.defaultValue) = _
    rw [mkReadDefs_defaults, hv]
    show ((input.fields.map parsedOf).map _) = _
    rw [List.map_map]
    rfl
  · intro st T fd fid now fa tbl hok hg hcont
    refine ⟨_, addColumn_getTable hok hg hcont, ?_⟩
    show (tbl.fields ++ [rowToFieldDefinition _]).map (fun f => f.defaultValue) = _
    rw [List.map_append]
    rfl

def exNoteFalse : FieldInput :=
  { name := "note", displayName := "Note", ftype := .boolean,
    required := none, unique := none, defaultValue := some (.bool false),
    description := none }

/-- The TableSchema value RETURNED by createTable on `exOrdersFalsy`: unlike
the getTable read-back, the in-memory return still shows the falsy default. -/
def exTsFalsyRet : TableSchema :=
  { id := "T1", name := "orders", displayName := "Orders", description := none,
    fields := [{ id := "F0", name := "total", displayName := "Total",
                 ftype := .number, required := true, unique := false,
                 defaultValue := none, description := none },
               { id := "F1", name := "flag", displayName := "Flag",
                 ftype := .boolean, required := true, unique := false,
                 defaultValue := some (.bool false), description := none }],
    createdAt := "t0", updatedAt := "t0" }

/-- Witness for C9: `false` defaults supplied to createTable and addColumn are
reported as absent by getTable. -/
theorem C9_falsy_default_dropped_witness :
    (storedDefault (some (.bool false)) = none ∧
      storedDefault (some (.num 0)) = none ∧
      storedDefault (some (.str "")) = none) ∧
    (∃ ts2, (SchemaService.createTable exSt0 exOrdersFalsy "T1" exGen "t0"
        noFaults).1.db.getTable "orders" = some ts2 ∧
      ts2.fields.map (fun f => f.defaultValue) =
        exOrdersFalsy.fields.map (fun f => storedDefault f.defaultValue)) ∧
    (∃ ts2, (SchemaService.addColumn exSt1 "orders" exNoteFalse "F9" "t1"
        noFaults).1.db.getTable "orders" = some ts2 ∧
      ts2.fields.map (fun f => f.defaultValue) =
        exTs1.fields.map (fun f => f.defaultValue) ++
          [storedDefault exNoteFalse.defaultValue]) :=
  ⟨⟨C9_falsy_default_dropped.1 (.bool false) (by rfl),
    C9_falsy_default_dropped.1 (.num 0) (by rfl),
    C9_falsy_default_dropped.1 (.str "") (by rfl)⟩,
   C9_falsy_default_dropped.2.1 exSt0 exOrdersFalsy "T1" exGen "t0" noFaults
     exTsFalsyRet (by rfl) (by decide),
   C9_falsy_default_dropped.2.2 exSt1 "orders" exNoteFalse "F9" "t1" noFaults exTs1
     (by rfl) (by rfl) (by decide)⟩

/-! ## Claim C2: the constraint-removal rebuild -/

theorem dropPhys_ok {db : DBState} {name : String} {db2 : DBState}
    (h : db.dropPhys name = .ok db2) :
    db2 = { db with phys := db.phys.filter (fun p => !(p.1 == name)) } ∧
      db.phys.any (fun p => p.1 == name) = true := by
  unfold DBState.dropPhys at h
  split_ifs at h with hc
  injection h with h2
  exact ⟨h2.symm, hc⟩

theorem renamePhysTable_ok {db : DBState} {old new : String} {db2 : DBState}
    (h : db.renamePhysTable old new = .ok db2) :
    ∃ pt, db.physTable old = some pt ∧ db.tableExistsB new = false ∧
      db2 = { db with
              phys := (db.phys.filter (fun p => !(p.1 == old))) ++ [(new, pt)] } := by
  unfold DBState.renamePhysTable at h
  split at h
  · cases h
  · rename_i pt hpt
    split_ifs at h with hc
    injection h with h2
    exact ⟨pt, hpt, by simpa using hc, h2.symm⟩

theorem copyRows_ok {db : DBState} {dst src : String} {cols : List String}
    {db2 : DBState} (h : db.copyRows dst src cols = .ok db2) : db2 = db := by
  unfold DBState.copyRows at h
  split at h
  · split_ifs at h
    injection h with h2
    exact h2.symm
  · cases h

theorem tableExistsB_false_no_entry {db : DBState} {name : String}
    (h : db.tableExistsB name = false) : ∀ p ∈ db.phys, (p.1 == name) = false := by
  unfold DBState.tableExistsB at h
  rw [Bool.or_eq_false_iff] at h
  exact any_eq_false_forall h.2

/-- Successful rebuild: catalog untouched, and the target relation's columns
are rebuilt from the catalog rows visible inside the transaction, with no
DEFAULT clause on any column. -/
theorem rebuild_ok {tableName columnName cstr : String} {nowMs : Nat}
    {fa : Nat → Bool} {k : Nat} {db : DBState} {r : DBState × Nat}
    (h : SchemaService.rebuildTableWithoutConstraint tableName columnName cstr
      nowMs fa k db = .ok r) :
    ∃ table, db.getTable tableName = some table ∧
      r.1.tables = db.tables ∧ r.1.fields = db.fields ∧
      r.1.physTable tableName = some
        ⟨idCol :: table.fields.map (SchemaService.rebuildColOf columnName cstr) ++
          [auditCol "created_at", auditCol "updated_at"]⟩ := by
  unfold SchemaService.rebuildTableWithoutConstraint at h
  cases hg : db.getTable tableName with
  | none => rw [hg] at h; cases h
  | some table =>
    rw [hg] at h
    refine ⟨table, rfl, ?_⟩
    rcases ebind_ok_elim h with ⟨r1, hr1, h2⟩
    rcases ebind_ok_elim h2 with ⟨r2, hr2, h3⟩
    rcases ebind_ok_elim h3 with ⟨r3, hr3, h4⟩
    rcases ebind_ok_elim h4 with ⟨r4, hr4, h5⟩
    obtain ⟨_, hop1, _⟩ := runExec_ok hr1
    obtain ⟨hdb1, hex1, _⟩ := createPhys_ok hop1
    obtain ⟨_, hop2, _⟩ := runExec_ok hr2
    have hdb2 := copyRows_ok hop2
    obtain ⟨_, hop3, _⟩ := runExec_ok hr3
    obtain ⟨hdb3, _⟩ := dropPhys_ok hop3
    obtain ⟨_, hop4, _⟩ := runExec_ok hr4
    obtain ⟨pt, hpt, _, hdb4⟩ := renamePhysTable_ok hop4
    injection h5 with h6
    rw [← h6]
    -- name the column list and the temp name
    set cols := idCol :: table.fields.map (SchemaService.rebuildColOf columnName cstr) ++
      [auditCol "created_at", auditCol "updated_at"] with hcols
    set temp := SchemaService.tempName tableName nowMs with htemp
    -- the temp relation survives the drop of the original, so temp ≠ tableName
    have hnotemp : ∀ p ∈ db.phys, (p.1 == temp) = false :=
      tableExistsB_false_no_entry hex1
    have hTneqtemp : (temp == tableName) = false := by
      by_contra hcontra
      rw [Bool.not_eq_false, beq_iff_eq] at hcontra
      -- then the drop removed the temp entry and the rename cannot find it
      rw [hdb2, hdb1] at hdb3
      rw [hdb3] at hpt
      unfold DBState.physTable at hpt
      rw [List.filter_append] at hpt
      have he1 : (db.phys.filter (fun p => !(p.1 == tableName))).find?
          (fun p => p.1 == temp) = none := by
        rw [List.find?_eq_none]
        intro p hp
        simp [hnotemp p (List.mem_of_mem_filter hp)]
      have he2 : ([(temp, (⟨cols⟩ : PhysTable))].filter
          (fun p => !(p.1 == tableName))) = [] := by
        rw [List.filter_eq_nil_iff]
        intro p hp
        rw [List.mem_singleton] at hp
        rw [hp]
        simp [hcontra]
      rw [he2, List.append_nil, he1] at hpt
      cases hpt
    -- hence the rename target entry is the temp one, carrying `cols`
    have hptval : pt = ⟨cols⟩ := by
      rw [hdb2, hdb1] at hdb3
      rw [hdb3] at hpt
      unfold DBState.physTable at hpt
      rw [List.filter_append] at hpt
      have he2 : ([(temp, (⟨cols⟩ : PhysTable))].filter
          (fun p => !(p.1 == tableName))) = [(temp, ⟨cols⟩)] := by
        rw [List.filter_eq_self]
        intro p hp
        rw [List.mem_singleton] at hp
        rw [hp]
        simp [hTneqtemp]
      rw [he2] at hpt
      rw [find?_append_right (fun p hp =>
        hnotemp p (List.mem_of_mem_filter hp)) (by simp)] at hpt
      injection hpt with hpt2
      rw [← hpt2]
    refine ⟨?_, ?_, ?_⟩
    · rw [hdb4, hdb3, hdb2, hdb1]
    · rw [hdb4, hdb3, hdb2, hdb1]
    · rw [hdb4]
      unfold DBState.physTable
      rw [find?_append_right ?hpre (by simp)]
      · rw [hptval]
        rfl
      case hpre =>
        intro p hp
        have hp2 := List.mem_of_mem_filter hp
        rw [hdb3, hdb2, hdb1] at hp2
        have hp3 := List.mem_of_mem_filter hp2
        simp only [List.mem_filter] at hp2
        exact by simpa using hp2.2

/-- The SQL constraint keyword the service passes to the rebuild. -/
def kindCstr : SchemaService.ConstraintKind → String
  | .required => "NOT NULL"
  | .unique => "UNIQUE"

/-- The catalog flag update issued before the rebuild. -/
def catalogUpd (kind : SchemaService.ConstraintKind) (now : String) (r : FieldRow) :
    FieldRow :=
  match kind with
  | .required => { r with required := false, updatedAt := now }
  | .unique => { r with unique := false, updatedAt := now }

theorem removeConstraint_ok {st : AdapterState} {T C : String}
    {kind : SchemaService.ConstraintKind} {now : String} {nowMs : Nat} {fa : Nat → Bool}
    (h : (SchemaService.removeConstraint st T C kind now nowMs fa).2 = .ok ()) :
    ∃ tbl, st.db.getTable T = some tbl ∧
      ∃ table2,
        (st.db.updateFieldRows tbl.id C (catalogUpd kind now)).getTable T = some table2 ∧
        (SchemaService.removeConstraint st T C kind now nowMs fa).1.db.tables =
          st.db.tables ∧
        (SchemaService.removeConstraint st T C kind now nowMs fa).1.db.fields =
          (st.db.updateFieldRows tbl.id C (catalogUpd kind now)).fields ∧
        (SchemaService.removeConstraint st T C kind now nowMs fa).1.db.physTable T =
          some ⟨idCol ::
            table2.fields.map (SchemaService.rebuildColOf C (kindCstr kind)) ++
            [auditCol "created_at", auditCol "updated_at"]⟩ := by
  unfold SchemaService.removeConstraint at h ⊢
  cases hg : st.db.getTable T with
  | none => rw [hg] at h; simp at h
  | some tbl =>
    rw [hg] at h
    refine ⟨tbl, rfl, ?_⟩
    by_cases hfind : (tbl.fields.find? (fun f => f.name == C)).isNone = true
    · simp [hfind] at h
    · simp only [hfind, Bool.false_eq_true, if_false] at h ⊢
      obtain ⟨hc, hn, db2, hbody, hres⟩ := runMutation_ok h
      cases kind with
      | required =>
        rcases ebind_ok_elim hbody with ⟨r1, hr1, h2⟩
        rcases ebind_ok_elim h2 with ⟨r2, hr2, h3⟩
        obtain ⟨_, hop1, _⟩ := runExec_ok hr1
        injection hop1 with hdb1
        obtain ⟨table2, hget2, htab, hfld, hphys⟩ := rebuild_ok hr2
        rw [← hdb1] at hget2 htab hfld
        injection h3 with h4
        rw [Prod.mk.injEq] at h4
        obtain ⟨hdb2eq, _⟩ := h4
        refine ⟨table2, hget2, ?_, ?_, ?_⟩
        · rw [hres]
          show db2.tables = _
          rw [← hdb2eq]
          exact htab
        · rw [hres]
          show db2.fields = _
          rw [← hdb2eq]
          exact hfld
        · rw [hres]
          show db2.physTable T = _
          rw [← hdb2eq]
          exact hphys
      | unique =>
        rcases ebind_ok_elim hbody with ⟨r1, hr1, h2⟩
        rcases ebind_ok_elim h2 with ⟨r2, hr2, h3⟩
        obtain ⟨_, hop1, _⟩ := runExec_ok hr1
        injection hop1 with hdb1
        obtain ⟨table2, hget2, htab, hfld, hphys⟩ := rebuild_ok hr2
        rw [← hdb1] at hget2 htab hfld
        injection h3 with h4
        rw [Prod.mk.injEq] at h4
        obtain ⟨hdb2eq, _⟩ := h4
        refine ⟨table2, hget2, ?_, ?_, ?_⟩
        · rw [hres]
          show db2.tables = _
          rw [← hdb2eq]
          exact htab
        · rw [hres]
          show db2.fields = _
          rw [← hdb2eq]
          exact hfld
        · rw [hres]
          show db2.physTable T = _
          rw [← hdb2eq]
          exact hphys

/-- The effect of the pre-rebuild catalog UPDATE on one row. -/
def updRowFor (tid C : String) (kind : SchemaService.ConstraintKind) (now : String)
    (r : FieldRow) : FieldRow :=
  if r.tableId == tid && r.name == C then catalogUpd kind now r else r

/-- The rebuilt physical column generated for catalog row `r`. -/
def rebuildColFromRow (C : String) (kind : SchemaService.ConstraintKind)
    (now tid : String) (r : FieldRow) : PhysCol :=
  SchemaService.rebuildColOf C (kindCstr kind)
    (rowToFieldDefinition (updRowFor tid C kind now r))

theorem updRowFor_tableId {tid C : String} {kind : SchemaService.ConstraintKind}
    {now : String} (r : FieldRow) : (updRowFor tid C kind now r).tableId = r.tableId := by
  unfold updRowFor catalogUpd
  split_ifs <;> cases kind <;> rfl

theorem updRowFor_sortOrder {tid C : String} {kind : SchemaService.ConstraintKind}
    {now : String} (r : FieldRow) : (updRowFor tid C kind now r).sortOrder = r.sortOrder := by
  unfold updRowFor catalogUpd
  split_ifs <;> cases kind <;> rfl

/-- Claim C2 (amended): after a successful removeConstraint(T, C, kind), the
catalog rows of every column other than C are unchanged (the update touches
only (T, C)); the rebuilt physical table derives each column from its catalog
row: every column other than C keeps its name, type, NOT NULL and UNIQUE,
while the target column C drops the removed constraint and retains the other
one — but no column of the rebuilt table carries a DEFAULT clause, so a
physical default previously added by addColumn is dropped rather than kept. -/
theorem C2_removeConstraint_frame {st : AdapterState} {T C : String}
    {kind : SchemaService.ConstraintKind} {now : String} {nowMs : Nat}
    {fa : Nat → Bool} {t : TableRow}
    (ht : st.db.tables.find? (fun t2 => t2.name == T) = some t)
    (hok : (SchemaService.removeConstraint st T C kind now nowMs fa).2 = .ok ())
    (hsorted : List.Pairwise (fun a b : FieldRow => a.sortOrder < b.sortOrder)
      (st.db.fieldRowsOf t.id)) :
    ((SchemaService.removeConstraint st T C kind now nowMs fa).1.db.fields =
      st.db.fields.map (updRowFor t.id C kind now)) ∧
    ((SchemaService.removeConstraint st T C kind now nowMs fa).1.db.physTable T =
      some ⟨idCol ::
        (st.db.fieldRowsOf t.id).map (rebuildColFromRow C kind now t.id) ++
        [auditCol "created_at", auditCol "updated_at"]⟩) ∧
    (∀ r : FieldRow, (r.name == C) = false → updRowFor t.id C kind now r = r) ∧
    (∀ r : FieldRow, (r.name == C) = false →
      rebuildColFromRow C kind now t.id r =
        { name := r.name, sqlType := mapFieldTypeToSQL r.ftype, primaryKey := false,
          notNull := r.required, unique := r.unique, dflt := none }) ∧
    (∀ r : FieldRow, (r.tableId == t.id) = true → (r.name == C) = true →
      rebuildColFromRow C kind now t.id r =
        { name := r.name, sqlType := mapFieldTypeToSQL r.ftype, primaryKey := false,
          notNull := match kind with | .required => false | .unique => r.required,
          unique := match kind with | .required => r.unique | .unique => false,
          dflt := none }) := by
  obtain ⟨tbl, hg, table2, hget2, htab, hfld, hphys⟩ := removeConstraint_ok hok
  obtain ⟨t2, ht2, htbl⟩ := getTable_some_elim hg
  rw [ht] at ht2
  injection ht2 with ht3
  have htblid : tbl.id = t.id := by rw [htbl, ← ht3]
  rw [htblid] at hfld hget2
  -- the fields of the table read back inside the transaction
  have hupd : (st.db.updateFieldRows t.id C (catalogUpd kind now)).fields =
      st.db.fields.map (updRowFor t.id C kind now) := rfl
  obtain ⟨t4, ht4, htable2⟩ := getTable_some_elim hget2
  have ht4eq : t4 = t := by
    have : (st.db.updateFieldRows t.id C (catalogUpd kind now)).tables =
        st.db.tables := rfl
    rw [show (st.db.updateFieldRows t.id C (catalogUpd kind now)).tables.find?
        (fun t2 => t2.name == T) = st.db.tables.find? (fun t2 => t2.name == T)
      from rfl, ht] at ht4
    injection ht4 with h5
    exact h5.symm
  -- compute table2.fields
  have hrows : (st.db.updateFieldRows t.id C (catalogUpd kind now)).fieldRowsOf t.id =
      (st.db.fieldRowsOf t.id).map (updRowFor t.id C kind now) := by
    unfold DBState.fieldRowsOf
    rw [hupd]
    rw [List.map_filter]
    have hfun : ((fun r : FieldRow => r.tableId == t.id) ∘ updRowFor t.id C kind now) =
        (fun r : FieldRow => r.tableId == t.id) := by
      funext r
      show ((updRowFor t.id C kind now r).tableId == t.id) = _
      rw [updRowFor_tableId]
    rw [hfun]
  have hsorted2 : List.Sorted bySortOrder
      ((st.db.fieldRowsOf t.id).map (updRowFor t.id C kind now)) := by
    unfold List.Sorted
    rw [List.pairwise_map]
    refine hsorted.imp ?_
    intro a b hab
    show (updRowFor t.id C kind now a).sortOrder ≤ (updRowFor t.id C kind now b).sortOrder
    rw [updRowFor_sortOrder, updRowFor_sortOrder]
    exact Nat.le_of_lt hab
  have htable2fields : table2.fields =
      ((st.db.fieldRowsOf t.id).map (updRowFor t.id C kind now)).map
        rowToFieldDefinition := by
    rw [htable2, ht4eq]
    show DBState.getTableFields _ t.id = _
    unfold DBState.getTableFields
    rw [hrows, List.Sorted.insertionSort_eq hsorted2]
  have hnotarget : ∀ (r : FieldRow), (r.name == C) = false →
      updRowFor t.id C kind now r = r := by
    intro r hr
    unfold updRowFor
    split_ifs with hc
    · rw [Bool.and_eq_true, hr] at hc
      exact absurd hc.2 (by simp)
    · rfl
  refine ⟨by rw [hfld, hupd], ?_, hnotarget, ?_, ?_⟩
  · rw [hphys, htable2fields, List.map_map, List.map_map]
    rfl
  · intro r hr
    unfold rebuildColFromRow
    rw [hnotarget r hr]
    unfold SchemaService.rebuildColOf
    rw [if_neg]
    · rfl
    · show ¬((rowToFieldDefinition r).name == C) = true
      show ¬(r.name == C) = true
      rw [hr]
      simp
  · intro r htid hname
    unfold rebuildColFromRow updRowFor
    rw [if_pos (by rw [Bool.and_eq_true]; exact ⟨htid, hname⟩)]
    cases kind with
    | required =>
      unfold catalogUpd SchemaService.rebuildColOf kindCstr rowToFieldDefinition
      cases hu : r.unique <;> simp [hname, hu]
    | unique =>
      unfold catalogUpd SchemaService.rebuildColOf kindCstr rowToFieldDefinition
      cases hreq : r.required <;> simp [hname, hreq]

def exT1row : TableRow :=
  { id := "T1", name := "orders", displayName := "Orders", description := none,
    createdAt := "t0", updatedAt := "t0" }

/-- Witness for C2 (amended): removing the required constraint from `total`
on the scenario table rebuilds the physical table from the updated catalog
rows, with no DEFAULT clause on any column. -/
theorem C2_removeConstraint_frame_witness :
    ((SchemaService.removeConstraint exSt1 "orders" "total" .required "t3" 1234
        noFaults).1.db.fields =
      exSt1.db.fields.map (updRowFor "T1" "total" .required "t3")) ∧
    ((SchemaService.removeConstraint exSt1 "orders" "total" .required "t3" 1234
        noFaults).1.db.physTable "orders" =
      some ⟨idCol :: (exSt1.db.fieldRowsOf "T1").map
          (rebuildColFromRow "total" .required "t3" "T1") ++
        [auditCol "created_at", auditCol "updated_at"]⟩) :=
  ⟨(@C2_removeConstraint_frame exSt1 "orders" "total"
      SchemaService.ConstraintKind.required "t3" 1234 noFaults exT1row
      (by rfl) (by rfl) (by decide)).1,
   (@C2_removeConstraint_frame exSt1 "orders" "total"
      SchemaService.ConstraintKind.required "t3" 1234 noFaults exT1row
      (by rfl) (by rfl) (by decide)).2.1⟩

/-- State after adding a boolean column `flag` with default `true`: the
physical column carries `DEFAULT 1`. -/
def exSt2 : AdapterState :=
  (SchemaService.addColumn exSt1 "orders" exFlagTrue "FA" "t4" noFaults).1

/-- Counterexample C2: before the rebuild the `flag` column physically
carries `DEFAULT 1`; removing the `required` constraint from the other
column `total` succeeds but rebuilds the table without any DEFAULT clause,
so `flag` — a column other than the target — does not keep its full prior
definition: its default value is dropped. -/
theorem C2_counterexample :
    ((exSt2.db.physTable "orders").map
      (fun pt => pt.cols.map (fun c => (c.name, c.dflt)))) =
      some [("id", none), ("total", none), ("created_at", none), ("updated_at", none),
        ("flag", some "1")] ∧
    (SchemaService.removeConstraint exSt2 "orders" "total" .required "t5" 99
      noFaults).2 = .ok () ∧
    (((SchemaService.removeConstraint exSt2 "orders" "total" .required "t5" 99
        noFaults).1.db.physTable "orders").map
      (fun pt => pt.cols.map (fun c => (c.name, c.dflt)))) =
      some [("id", none), ("total", none), ("flag", none), ("created_at", none),
        ("updated_at", none)] :=
  ⟨by rfl, by rfl, by rfl⟩

end SpineKit
